import Mathlib

/-!
Verification of the `amm_sim_rs` constant-product AMM simulator.

This file is a shallow embedding of the simulator's core into Lean 4:

* `Wad`: the 18-decimal signed fixed-point scalar (`src/types/wad.rs`).
  Rust `i128` values are modelled as unbounded `Int`; Rust `/` on `i128`
  truncates toward zero, which is `Int.tdiv`.  (The spec notes that
  overflow is deliberately unguarded, callers respect the domain.)
* `CFMM`: the pool (`src/amm/cfmm.rs`).  The `f64` reserve arithmetic is
  interpreted exactly, over an arbitrary linear ordered field `K`
  (in particular over `ℝ`).  The EVM strategy host is modelled as an
  abstract deterministic state machine `afterSwap : S → TradeInfo K →
  Option (Int × Int) × S`: the WAD encoding of the trade data, the EVM
  execution and every possible error are folded into this parameter
  (`none` models any `EVMError`).
* `decode_fee_pair` and the 32-byte word decoding (`src/types/trade_info.rs`).
* The arbitrageur (`src/market/arbitrageur.rs`) and the order router
  (`src/market/router.rs`) over `ℝ`, with `Real.sqrt` for `f64::sqrt`.
* The GBM price process, the retail generator and the simulation engine
  (`src/market/price_process.rs`, `src/market/retail.rs`,
  `src/simulation/engine.rs`).  The external `rand` / `rand_pcg` /
  `rand_distr` crates are modelled as an abstract deterministic sampler
  family `RngModel` over an abstract generator state `R`; OS entropy
  (`Pcg64::from_entropy`) is an explicit oracle argument.
-/

namespace AmmSim

/-! ### Fixed-point scalar (src/types/wad.rs)

A `Wad` is a raw `i128`, modelled as `Int`.  Rust integer division on
`i128` rounds toward zero (`Int.tdiv`). -/

namespace Wad

/-- WAD precision constant (1e18). -/
def WAD : Int := 1000000000000000000

/-- One basis point in WAD (0.0001 = 1e14). -/
def BPS : Int := 100000000000000

/-- Maximum fee in WAD (10% = 1e17). -/
def MAX_FEE : Int := 100000000000000000

/-- Create a WAD representing a number of basis points. -/
def from_bps (bps : Int) : Int := bps * BPS

/-- WAD multiplication: `(a * b) / WAD`, Rust `i128` division (toward zero). -/
def wmul (a b : Int) : Int := Int.tdiv (a * b) WAD

/-- WAD division: `(a * WAD) / b`, returning 0 when `b = 0`. -/
def wdiv (a b : Int) : Int := if b = 0 then 0 else Int.tdiv (a * WAD) b

/-- Clamp fee to the valid range `[0, MAX_FEE]` (`self.0.max(0).min(MAX_FEE)`). -/
def clamp_fee (a : Int) : Int := min (max a 0) MAX_FEE

theorem clamp_fee_nonneg (a : Int) : 0 ≤ clamp_fee a :=
  le_min (le_max_right a 0) (by norm_num [MAX_FEE])

theorem clamp_fee_le (a : Int) : clamp_fee a ≤ MAX_FEE := min_le_right _ _

theorem clamp_fee_of_mem {a : Int} (h0 : 0 ≤ a) (h1 : a ≤ MAX_FEE) :
    clamp_fee a = a := by
  simp [clamp_fee, max_eq_left h0, min_eq_left h1]

end Wad

/-! ### Pool data model (src/amm/cfmm.rs)

Reserve arithmetic is `f64` in the source; here it is interpreted exactly
over an arbitrary linear ordered field `K`.  Stored fees are raw WAD
integers, converted by `wadToK` exactly as `Wad::to_f64` divides by 1e18. -/

/-- Fee quote (bid and ask fees), raw WAD values. -/
structure FeeQuote where
  bid_fee : Int
  ask_fee : Int
deriving DecidableEq

/-- Symmetric fee quote. -/
def FeeQuote.symmetric (fee : Int) : FeeQuote := ⟨fee, fee⟩

/-- Exact interpretation of `Wad::to_f64`: the raw value divided by 1e18. -/
def wadToK (K : Type) [LinearOrderedField K] (w : Int) : K :=
  (w : K) / ((Wad.WAD : Int) : K)

/-- Exact interpretation of `f64::clamp(lo, hi)`: `min (max x lo) hi`. -/
def fclamp {K : Type} [LinearOrderedField K] (x lo hi : K) : K := min (max x lo) hi

/-- Trade description handed to the strategy after a swap.  In the source
the numeric fields cross the EVM boundary as `Wad` (`Wad::from_f64`); that
encoding is folded into the abstract strategy function. -/
structure TradeInfo (K : Type) where
  is_buy : Bool
  amount_x : K
  amount_y : K
  timestamp : Nat
  reserve_x : K
  reserve_y : K
deriving DecidableEq

/-- Result of a trade execution. -/
structure TradeResult (K : Type) where
  trade_info : TradeInfo K
  fee_amount : K
deriving DecidableEq

/-- Constant Function Market Maker state.  The owned `EVMStrategy` of the
source is split out: executes receive the strategy transition function and
its current state explicitly. -/
structure CFMM (K : Type) where
  name : String
  reserve_x : K
  reserve_y : K
  current_fees : FeeQuote
  initialized : Bool
  accumulated_fees_x : K
  accumulated_fees_y : K
deriving DecidableEq

variable {K : Type} [LinearOrderedField K] {S : Type}

/-- `CFMM::new`: default symmetric 30 bps fees, not initialized, empty
fee buckets.  (In the source the name is taken from the strategy.) -/
def CFMM.new (name : String) (reserve_x reserve_y : K) : CFMM K :=
  { name := name
    reserve_x := reserve_x
    reserve_y := reserve_y
    current_fees := FeeQuote.symmetric (Wad.from_bps 30)
    initialized := false
    accumulated_fees_x := 0
    accumulated_fees_y := 0 }

/-- `CFMM::spot_price`: `y / x`, or 0 when `x = 0`. -/
def CFMM.spot_price (p : CFMM K) : K :=
  if p.reserve_x = 0 then 0 else p.reserve_y / p.reserve_x

/-- `CFMM::quote_buy_x` (pool buys X): returns `(y_out, fee_amount)` or `(0,0)`. -/
def CFMM.quote_buy_x (p : CFMM K) (amount_x : K) : K × K :=
  if amount_x ≤ 0 then (0, 0)
  else
    let fee := wadToK K p.current_fees.bid_fee
    let gamma := fclamp (1 - fee) 0 1
    if gamma ≤ 0 then (0, 0)
    else
      let net_x := amount_x * gamma
      let k := p.reserve_x * p.reserve_y
      let new_rx := p.reserve_x + net_x
      let new_ry := k / new_rx
      let y_out := p.reserve_y - new_ry
      if 0 < y_out then (y_out, amount_x * fee) else (0, 0)

/-- `CFMM::quote_sell_x` (pool sells X): returns `(total_y_in, fee_amount)`
or `(0,0)`. -/
def CFMM.quote_sell_x (p : CFMM K) (amount_x : K) : K × K :=
  if amount_x ≤ 0 ∨ p.reserve_x ≤ amount_x then (0, 0)
  else
    let k := p.reserve_x * p.reserve_y
    let fee := wadToK K p.current_fees.ask_fee
    let gamma := fclamp (1 - fee) 0 1
    if gamma ≤ 0 then (0, 0)
    else
      let new_rx := p.reserve_x - amount_x
      let new_ry := k / new_rx
      let net_y := new_ry - p.reserve_y
      if net_y ≤ 0 then (0, 0)
      else
        let total_y := net_y / gamma
        (total_y, total_y - net_y)

/-- `CFMM::quote_x_for_y` (Y in, X out): returns `(x_out, fee_amount)` or `(0,0)`. -/
def CFMM.quote_x_for_y (p : CFMM K) (amount_y : K) : K × K :=
  if amount_y ≤ 0 then (0, 0)
  else
    let k := p.reserve_x * p.reserve_y
    let fee := wadToK K p.current_fees.ask_fee
    let gamma := fclamp (1 - fee) 0 1
    if gamma ≤ 0 then (0, 0)
    else
      let net_y := amount_y * gamma
      let new_ry := p.reserve_y + net_y
      let new_rx := k / new_ry
      let x_out := p.reserve_x - new_rx
      if 0 < x_out then (x_out, amount_y * fee) else (0, 0)

/-- `CFMM::update_fees`: ask the strategy for new fees; on success store the
clamped pair, on any host error keep the current fees.  The strategy is an
abstract state machine: it returns `none` for any `EVMError`. -/
def CFMM.update_fees (afterSwap : S → TradeInfo K → Option (Int × Int) × S)
    (s : S) (p : CFMM K) (ti : TradeInfo K) : CFMM K × S :=
  match afterSwap s ti with
  | (some (bid_fee, ask_fee), s1) =>
      ({ p with current_fees := ⟨Wad.clamp_fee bid_fee, Wad.clamp_fee ask_fee⟩ }, s1)
  | (none, s1) => (p, s1)

/-- `CFMM::execute_buy_x` (pool buys X, trader sells X for Y). -/
def CFMM.execute_buy_x (afterSwap : S → TradeInfo K → Option (Int × Int) × S)
    (s : S) (p : CFMM K) (amount_x : K) (timestamp : Nat) :
    Option (CFMM K × S × TradeResult K) :=
  let q := p.quote_buy_x amount_x
  if q.1 ≤ 0 then none
  else
    let net_x := amount_x - q.2
    let p1 := { p with
      reserve_x := p.reserve_x + net_x
      accumulated_fees_x := p.accumulated_fees_x + q.2
      reserve_y := p.reserve_y - q.1 }
    let ti : TradeInfo K :=
      ⟨true, amount_x, q.1, timestamp, p1.reserve_x, p1.reserve_y⟩
    let u := CFMM.update_fees afterSwap s p1 ti
    some (u.1, u.2, ⟨ti, q.2⟩)

/-- `CFMM::execute_sell_x` (pool sells X, trader buys X with Y). -/
def CFMM.execute_sell_x (afterSwap : S → TradeInfo K → Option (Int × Int) × S)
    (s : S) (p : CFMM K) (amount_x : K) (timestamp : Nat) :
    Option (CFMM K × S × TradeResult K) :=
  let q := p.quote_sell_x amount_x
  if q.1 ≤ 0 then none
  else
    let net_y := q.1 - q.2
    let p1 := { p with
      reserve_x := p.reserve_x - amount_x
      reserve_y := p.reserve_y + net_y
      accumulated_fees_y := p.accumulated_fees_y + q.2 }
    let ti : TradeInfo K :=
      ⟨false, amount_x, q.1, timestamp, p1.reserve_x, p1.reserve_y⟩
    let u := CFMM.update_fees afterSwap s p1 ti
    some (u.1, u.2, ⟨ti, q.2⟩)

/-- `CFMM::execute_buy_x_with_y` (trader pays Y to receive X). -/
def CFMM.execute_buy_x_with_y (afterSwap : S → TradeInfo K → Option (Int × Int) × S)
    (s : S) (p : CFMM K) (amount_y : K) (timestamp : Nat) :
    Option (CFMM K × S × TradeResult K) :=
  let q := p.quote_x_for_y amount_y
  if q.1 ≤ 0 then none
  else
    let net_y := amount_y - q.2
    let p1 := { p with
      reserve_x := p.reserve_x - q.1
      reserve_y := p.reserve_y + net_y
      accumulated_fees_y := p.accumulated_fees_y + q.2 }
    let ti : TradeInfo K :=
      ⟨false, q.1, amount_y, timestamp, p1.reserve_x, p1.reserve_y⟩
    let u := CFMM.update_fees afterSwap s p1 ti
    some (u.1, u.2, ⟨ti, q.2⟩)

/-- `CFMM::initialize`: ask the strategy for starting fees (WAD encoding of
the reserves folded into the abstract `afterInit`), store the clamped pair
and mark the pool initialized; a host error (`none`) is propagated. -/
def CFMM.init_pool (afterInit : S → K → K → Option ((Int × Int) × S))
    (s : S) (p : CFMM K) : Option (CFMM K × S) :=
  match afterInit s p.reserve_x p.reserve_y with
  | some ((bid_fee, ask_fee), s1) =>
      some ({ p with
        current_fees := ⟨Wad.clamp_fee bid_fee, Wad.clamp_fee ask_fee⟩
        initialized := true }, s1)
  | none => none

/-! ### ABI return-data decoding (src/types/trade_info.rs)

Return data is a byte sequence; bytes are modelled as `Nat` values.
`u128::from_be_bytes` of the lower 16 bytes is big-endian accumulation. -/

/-- Big-endian byte accumulation (`u128::from_be_bytes`). -/
def beBytesToNat (l : List Nat) : Nat := l.foldl (fun acc b => acc * 256 + b) 0

/-- Decode big-endian 32 bytes as `u128` (upper 16 bytes must be zero). -/
def decode_u256 (data : List Nat) : Option Nat :=
  if data.length ≠ 32 then none
  else if (data.take 16).any (fun b => b != 0) then none
  else some (beBytesToNat (data.drop 16))

/-- Rust `i128::try_from(u128)`: succeeds exactly below `2^127`. -/
def i128_try_from (n : Nat) : Option Int :=
  if n < 2 ^ 127 then some (n : Int) else none

/-- Decode `(uint256, uint256)` return data as a `(bid_fee, ask_fee)` pair.
The `?` early returns of the source are `Option.bind`. -/
def decode_fee_pair (data : List Nat) : Option (Int × Int) :=
  if data.length < 64 then none
  else
    (decode_u256 (data.take 32)).bind fun bid_fee =>
    (decode_u256 ((data.drop 32).take 32)).bind fun ask_fee =>
    if Wad.MAX_FEE.toNat < bid_fee ∨ Wad.MAX_FEE.toNat < ask_fee then none
    else
      (i128_try_from bid_fee).bind fun b =>
      (i128_try_from ask_fee).bind fun a =>
      some (b, a)

/-- The four EVM host error kinds (src/evm/strategy.rs). -/
inductive EVMErrorKind where
  | deploymentFailed
  | executionFailed
  | invalidReturnData
  | outOfGas
deriving DecidableEq

/-- The decoding step of `EVMStrategy::after_swap` / `after_initialize`:
a failed decode becomes the `InvalidReturnData` error. -/
def decode_fee_pair_or_err (data : List Nat) : Except EVMErrorKind (Int × Int) :=
  match decode_fee_pair data with
  | some p => Except.ok p
  | none => Except.error EVMErrorKind.invalidReturnData

/-! ### Arbitrageur (src/market/arbitrageur.rs)

`f64::sqrt` is interpreted as `Real.sqrt`, so this layer is fixed at `ℝ`. -/

/-- Result of an arbitrage attempt. -/
structure ArbResult where
  amm_name : String
  profit : ℝ
  side : String
  amount_x : ℝ
  amount_y : ℝ

/-- `Arbitrageur::compute_buy_arb`: arbitrageur buys X from the AMM (the
AMM sells X).  Returns the updated pool and strategy state with the
`ArbResult`, or `none` when no profitable trade exists. -/
noncomputable def Arbitrageur.compute_buy_arb {S : Type}
    (afterSwap : S → TradeInfo ℝ → Option (Int × Int) × S) (s : S)
    (amm : CFMM ℝ) (fair_price : ℝ) (timestamp : Nat) :
    Option (CFMM ℝ × S × ArbResult) :=
  let k := amm.reserve_x * amm.reserve_y
  let fee := wadToK ℝ amm.current_fees.ask_fee
  let gamma := 1 - fee
  if gamma ≤ 0 ∨ fair_price ≤ 0 then none
  else
    let new_x := Real.sqrt (k / (gamma * fair_price))
    let amount_x0 := amm.reserve_x - new_x
    if amount_x0 ≤ 0 then none
    else
      let amount_x := min amount_x0 (amm.reserve_x * 0.99)
      let total_y := (amm.quote_sell_x amount_x).1
      if total_y ≤ 0 then none
      else
        let profit := amount_x * fair_price - total_y
        if profit ≤ 0 then none
        else
          match amm.execute_sell_x afterSwap s amount_x timestamp with
          | none => none
          | some (p1, s1, _) =>
              some (p1, s1, ⟨amm.name, profit, "sell", amount_x, total_y⟩)

/-- `Arbitrageur::compute_sell_arb`: arbitrageur sells X to the AMM (the
AMM buys X); `amount_x` is the gross input. -/
noncomputable def Arbitrageur.compute_sell_arb {S : Type}
    (afterSwap : S → TradeInfo ℝ → Option (Int × Int) × S) (s : S)
    (amm : CFMM ℝ) (fair_price : ℝ) (timestamp : Nat) :
    Option (CFMM ℝ × S × ArbResult) :=
  let k := amm.reserve_x * amm.reserve_y
  let fee := wadToK ℝ amm.current_fees.bid_fee
  let gamma := 1 - fee
  if gamma ≤ 0 ∨ fair_price ≤ 0 then none
  else
    let x_virtual := Real.sqrt (k * gamma / fair_price)
    let net_x := x_virtual - amm.reserve_x
    let amount_x := net_x / gamma
    if amount_x ≤ 0 then none
    else
      let y_out := (amm.quote_buy_x amount_x).1
      if y_out ≤ 0 then none
      else
        let profit := y_out - amount_x * fair_price
        if profit ≤ 0 then none
        else
          match amm.execute_buy_x afterSwap s amount_x timestamp with
          | none => none
          | some (p1, s1, _) =>
              some (p1, s1, ⟨amm.name, profit, "buy", amount_x, y_out⟩)

/-- `Arbitrageur::execute_arb`: dispatch on spot vs fair price; `none`
leaves the pool untouched (the mutating executes happen only inside the
two compute functions). -/
noncomputable def Arbitrageur.execute_arb {S : Type}
    (afterSwap : S → TradeInfo ℝ → Option (Int × Int) × S) (s : S)
    (amm : CFMM ℝ) (fair_price : ℝ) (timestamp : Nat) :
    Option (CFMM ℝ × S × ArbResult) :=
  let spot_price := amm.reserve_y / amm.reserve_x
  if spot_price < fair_price then
    Arbitrageur.compute_buy_arb afterSwap s amm fair_price timestamp
  else if fair_price < spot_price then
    Arbitrageur.compute_sell_arb afterSwap s amm fair_price timestamp
  else none

/-! ### Order router (src/market/router.rs), two-pool closed form -/

/-- A retail order; `side` is the literal string tag of the source. -/
structure RetailOrder where
  side : String
  size : ℝ

/-- Result of routing a trade to an AMM. -/
structure RoutedTrade where
  amm_name : String
  amount_y : ℝ
  amount_x : ℝ
  amm_buys_x : Bool

/-- `OrderRouter::split_buy_two_amms`: optimal Y split for buying X over
two pools, using ask fees. -/
noncomputable def OrderRouter.split_buy_two_amms
    (amm1 amm2 : CFMM ℝ) (total_y : ℝ) : ℝ × ℝ :=
  let gamma1 := 1 - wadToK ℝ amm1.current_fees.ask_fee
  let gamma2 := 1 - wadToK ℝ amm2.current_fees.ask_fee
  let a1 := Real.sqrt (amm1.reserve_x * gamma1 * amm1.reserve_y)
  let a2 := Real.sqrt (amm2.reserve_x * gamma2 * amm2.reserve_y)
  if a2 = 0 then (total_y, 0)
  else
    let r := a1 / a2
    let numerator := r * (amm2.reserve_y + gamma2 * total_y) - amm1.reserve_y
    let denominator := gamma1 + r * gamma2
    let y1_raw := if denominator = 0 then total_y / 2 else numerator / denominator
    let y1_amount := min (max y1_raw 0) total_y
    (y1_amount, total_y - y1_amount)

/-- `OrderRouter::split_sell_two_amms`: optimal X split for selling X over
two pools, using bid fees. -/
noncomputable def OrderRouter.split_sell_two_amms
    (amm1 amm2 : CFMM ℝ) (total_x : ℝ) : ℝ × ℝ :=
  let gamma1 := 1 - wadToK ℝ amm1.current_fees.bid_fee
  let gamma2 := 1 - wadToK ℝ amm2.current_fees.bid_fee
  let b1 := Real.sqrt (amm1.reserve_y * gamma1 * amm1.reserve_x)
  let b2 := Real.sqrt (amm2.reserve_y * gamma2 * amm2.reserve_x)
  if b2 = 0 then (total_x, 0)
  else
    let r := b1 / b2
    let numerator := r * (amm2.reserve_x + gamma2 * total_x) - amm1.reserve_x
    let denominator := gamma1 + r * gamma2
    let x1_raw := if denominator = 0 then total_x / 2 else numerator / denominator
    let x1_amount := min (max x1_raw 0) total_x
    (x1_amount, total_x - x1_amount)

/-- One leg of `OrderRouter::route_to_two_amms`, buy side: execute
`execute_buy_x_with_y` when the allocation clears the dust floor
(`MIN_AMOUNT = 0.0001`), otherwise leave the pool untouched. -/
noncomputable def OrderRouter.buy_leg {S : Type}
    (afterSwap : S → TradeInfo ℝ → Option (Int × Int) × S) (s : S)
    (amm : CFMM ℝ) (alloc : ℝ) (timestamp : Nat) :
    CFMM ℝ × S × List RoutedTrade :=
  if 0.0001 < alloc then
    match amm.execute_buy_x_with_y afterSwap s alloc timestamp with
    | some (p1, s1, r) =>
        (p1, s1, [⟨amm.name, alloc, r.trade_info.amount_x, false⟩])
    | none => (amm, s, [])
  else (amm, s, [])

/-- One leg of `OrderRouter::route_to_two_amms`, sell side: execute
`execute_buy_x` when the allocation clears the dust floor. -/
noncomputable def OrderRouter.sell_leg {S : Type}
    (afterSwap : S → TradeInfo ℝ → Option (Int × Int) × S) (s : S)
    (amm : CFMM ℝ) (alloc : ℝ) (timestamp : Nat) :
    CFMM ℝ × S × List RoutedTrade :=
  if 0.0001 < alloc then
    match amm.execute_buy_x afterSwap s alloc timestamp with
    | some (p1, s1, r) =>
        (p1, s1, [⟨amm.name, r.trade_info.amount_y, alloc, true⟩])
    | none => (amm, s, [])
  else (amm, s, [])

/-- `OrderRouter::route_to_two_amms`: split the order by the closed form
and execute each leg above the dust floor; a sell order converts its
Y-size to X via the fair price. -/
noncomputable def OrderRouter.route_to_two_amms {S1 S2 : Type}
    (afterSwap1 : S1 → TradeInfo ℝ → Option (Int × Int) × S1) (s1 : S1)
    (afterSwap2 : S2 → TradeInfo ℝ → Option (Int × Int) × S2) (s2 : S2)
    (amm1 amm2 : CFMM ℝ) (order : RetailOrder) (fair_price : ℝ)
    (timestamp : Nat) : CFMM ℝ × S1 × CFMM ℝ × S2 × List RoutedTrade :=
  if order.side = "buy" then
    let sp := OrderRouter.split_buy_two_amms amm1 amm2 order.size
    let leg1 := OrderRouter.buy_leg afterSwap1 s1 amm1 sp.1 timestamp
    let leg2 := OrderRouter.buy_leg afterSwap2 s2 amm2 sp.2 timestamp
    (leg1.1, leg1.2.1, leg2.1, leg2.2.1, leg1.2.2 ++ leg2.2.2)
  else
    let total_x := order.size / fair_price
    let sp := OrderRouter.split_sell_two_amms amm1 amm2 total_x
    let leg1 := OrderRouter.sell_leg afterSwap1 s1 amm1 sp.1 timestamp
    let leg2 := OrderRouter.sell_leg afterSwap2 s2 amm2 sp.2 timestamp
    (leg1.1, leg1.2.1, leg2.1, leg2.2.1, leg1.2.2 ++ leg2.2.2)

/-- `OrderRouter::route_orders` specialised to the engine's two pools:
route each order of the batch in sequence, concatenating the trades. -/
noncomputable def OrderRouter.route_orders_two {S1 S2 : Type}
    (afterSwap1 : S1 → TradeInfo ℝ → Option (Int × Int) × S1)
    (afterSwap2 : S2 → TradeInfo ℝ → Option (Int × Int) × S2)
    (orders : List RetailOrder) (s1 : S1) (s2 : S2)
    (amm1 amm2 : CFMM ℝ) (fair_price : ℝ) (timestamp : Nat) :
    CFMM ℝ × S1 × CFMM ℝ × S2 × List RoutedTrade :=
  match orders with
  | [] => (amm1, s1, amm2, s2, [])
  | o :: rest =>
      let r1 := OrderRouter.route_to_two_amms afterSwap1 s1 afterSwap2 s2
        amm1 amm2 o fair_price timestamp
      let r2 := OrderRouter.route_orders_two afterSwap1 afterSwap2 rest
        r1.2.1 r1.2.2.2.1 r1.1 r1.2.2.1 fair_price timestamp
      (r2.1, r2.2.1, r2.2.2.1, r2.2.2.2.1, r1.2.2.2.2 ++ r2.2.2.2.2)

/-! ### Market generators and engine

The external `rand` crates are modelled by an abstract deterministic
sampler family over a generator-state type `R`; `Pcg64::from_entropy` is
an explicit entropy oracle argument, used only when no seed is given. -/

/-- Deterministic model of the `rand` / `rand_pcg` / `rand_distr` crates:
seeding, a standard-normal draw, a Poisson draw (given lambda), a
lognormal draw (given mu and sigma) and a unit-interval draw. -/
structure RngModel (R : Type) where
  seedFrom : Nat → R
  sampleNormal : R → ℝ × R
  samplePoisson : ℝ → R → ℝ × R
  sampleLogNormal : ℝ → ℝ → R → ℝ × R
  sampleUnit : R → ℝ × R

/-- GBM price process state (src/market/price_process.rs). -/
structure GBMPriceProcess (R : Type) where
  current_price : ℝ
  mu : ℝ
  sigma : ℝ
  dt : ℝ
  drift_term : ℝ
  vol_term : ℝ
  rng : R

/-- `GBMPriceProcess::new`: seeded PCG when a seed is given, OS entropy
otherwise; precomputed drift and volatility terms. -/
noncomputable def GBMPriceProcess.new {R : Type} (M : RngModel R) (entropy : R)
    (initial_price mu sigma dt : ℝ) (seed : Option Nat) : GBMPriceProcess R :=
  { current_price := initial_price
    mu := mu
    sigma := sigma
    dt := dt
    drift_term := (mu - 0.5 * sigma * sigma) * dt
    vol_term := sigma * Real.sqrt dt
    rng := match seed with
      | some s => M.seedFrom s
      | none => entropy }

/-- `GBMPriceProcess::step`: draw a standard normal, multiply the price by
the exponential increment. -/
noncomputable def GBMPriceProcess.step {R : Type} (M : RngModel R)
    (g : GBMPriceProcess R) : ℝ × GBMPriceProcess R :=
  let z := M.sampleNormal g.rng
  let exponent := g.drift_term + g.vol_term * z.1
  let p := g.current_price * Real.exp exponent
  (p, { g with current_price := p, rng := z.2 })

/-- First `n` prices generated by repeated `step` calls. -/
noncomputable def GBMPriceProcess.prices {R : Type} (M : RngModel R) :
    Nat → GBMPriceProcess R → List ℝ
  | 0, _ => []
  | n + 1, g =>
      let s := g.step M
      s.1 :: GBMPriceProcess.prices M n s.2

/-- Retail trader state (src/market/retail.rs); the distribution
parameters are sanitised exactly as in `RetailTrader::new`. -/
structure RetailTrader (R : Type) where
  arrival_rate : ℝ
  mean_size : ℝ
  size_sigma : ℝ
  buy_prob : ℝ
  rng : R
  poisson_lambda : ℝ
  lognormal_mu : ℝ
  lognormal_sigma : ℝ

/-- `RetailTrader::new`: sanitise lambda, mean, sigma with small floors and
derive the lognormal location so its mean is the configured mean size. -/
noncomputable def RetailTrader.new {R : Type} (M : RngModel R) (entropy : R)
    (arrival_rate mean_size size_sigma buy_prob : ℝ) (seed : Option Nat) :
    RetailTrader R :=
  let sigma := max size_sigma 0.01
  let mean := max mean_size 0.01
  { arrival_rate := arrival_rate
    mean_size := mean_size
    size_sigma := sigma
    buy_prob := buy_prob
    rng := match seed with
      | some s => M.seedFrom s
      | none => entropy
    poisson_lambda := max arrival_rate 0.01
    lognormal_mu := Real.log mean - 0.5 * sigma * sigma
    lognormal_sigma := sigma }

/-- The per-order loop of `RetailTrader::generate_orders`: for each
arrival, draw a lognormal size and then a Bernoulli side. -/
noncomputable def retailOrderLoop {R : Type} (M : RngModel R)
    (mu sigma buy_prob : ℝ) : Nat → R → List RetailOrder × R
  | 0, r => ([], r)
  | n + 1, r =>
      let sz := M.sampleLogNormal mu sigma r
      let sd := M.sampleUnit sz.2
      let side := if sd.1 < buy_prob then "buy" else "sell"
      let rest := retailOrderLoop M mu sigma buy_prob n sd.2
      (⟨side, sz.1⟩ :: rest.1, rest.2)

/-- `RetailTrader::generate_orders`: Poisson number of arrivals (the `f64`
draw cast `as usize` truncates toward zero, clamping negatives to 0), then
one size and one side per order. -/
noncomputable def RetailTrader.generate_orders {R : Type} (M : RngModel R)
    (tr : RetailTrader R) : List RetailOrder × RetailTrader R :=
  let z := M.samplePoisson tr.poisson_lambda tr.rng
  let n_arrivals := (⌊z.1⌋).toNat
  let res := retailOrderLoop M tr.lognormal_mu tr.lognormal_sigma tr.buy_prob
    n_arrivals z.2
  (res.1, { tr with rng := res.2 })

/-! ### Simulation engine (src/simulation/engine.rs)

The engine runs exactly two pools, named `"submission"` and
`"normalizer"`.  Per-name `HashMap`s keyed by these two distinct constant
names are modelled as pairs `(submission value, normalizer value)`; the
`get_mut(name).unwrap()` lookups become a comparison against the
positional names. -/

/-- Simulation configuration (src/types/config.rs). -/
structure SimulationConfig where
  n_steps : Nat
  initial_price : ℝ
  initial_x : ℝ
  initial_y : ℝ
  gbm_mu : ℝ
  gbm_sigma : ℝ
  gbm_dt : ℝ
  retail_arrival_rate : ℝ
  retail_mean_size : ℝ
  retail_size_sigma : ℝ
  retail_buy_prob : ℝ
  seed : Option Nat

/-- Per-step snapshot (`LightweightStepResult`); per-name maps are pairs
`(submission, normalizer)`. -/
structure StepResult where
  timestamp : Nat
  fair_price : ℝ
  spot_prices : ℝ × ℝ
  pnls : ℝ × ℝ
  fees : (ℝ × ℝ) × (ℝ × ℝ)

/-- Simulation result (`LightweightSimResult`); per-name maps are pairs
`(submission, normalizer)`. -/
structure SimResult where
  seed : Nat
  strategies : List String
  pnl : ℝ × ℝ
  edges : ℝ × ℝ
  initial_fair_price : ℝ
  initial_reserves : (ℝ × ℝ) × (ℝ × ℝ)
  steps : List StepResult
  arb_volume_y : ℝ × ℝ
  retail_volume_y : ℝ × ℝ
  average_fees : (ℝ × ℝ) × (ℝ × ℝ)

/-- Mutable engine state threaded through the step loop. -/
structure EngineState (R S1 S2 : Type) where
  price_process : GBMPriceProcess R
  retail : RetailTrader R
  amm1 : CFMM ℝ
  s1 : S1
  amm2 : CFMM ℝ
  s2 : S2
  edges : ℝ × ℝ
  arb_volume_y : ℝ × ℝ
  retail_volume_y : ℝ × ℝ
  cumulative_bid_fees : ℝ × ℝ
  cumulative_ask_fees : ℝ × ℝ
  steps : List StepResult

/-- Add `v` to the component selected by `name` (the engine's
`HashMap::get_mut(name).unwrap()` against the two positional names). -/
def addByName (name1 name2 : String) (m : ℝ × ℝ) (name : String) (v : ℝ) :
    ℝ × ℝ :=
  if name = name1 then (m.1 + v, m.2)
  else if name = name2 then (m.1, m.2 + v)
  else m

/-- `capture_step`: spot prices, running mark-to-market PnL (reserves plus
fee buckets, less initial value) and current fees per pool. -/
noncomputable def capture_step (timestamp : Nat) (fair_price : ℝ)
    (amm1 amm2 : CFMM ℝ) (initial_reserves : (ℝ × ℝ) × (ℝ × ℝ))
    (initial_fair_price : ℝ) : StepResult :=
  let pnlOf : CFMM ℝ → ℝ × ℝ → ℝ := fun amm init =>
    let init_value := init.1 * initial_fair_price + init.2
    let reserves_value := amm.reserve_x * fair_price + amm.reserve_y
    let fees_value := amm.accumulated_fees_x * fair_price + amm.accumulated_fees_y
    reserves_value + fees_value - init_value
  { timestamp := timestamp
    fair_price := fair_price
    spot_prices := (amm1.spot_price, amm2.spot_price)
    pnls := (pnlOf amm1 initial_reserves.1, pnlOf amm2 initial_reserves.2)
    fees := ((wadToK ℝ amm1.current_fees.bid_fee, wadToK ℝ amm1.current_fees.ask_fee),
             (wadToK ℝ amm2.current_fees.bid_fee, wadToK ℝ amm2.current_fees.ask_fee)) }

/-- Apply one arbitrage attempt on one pool, accumulating volume and edge
by the result's pool name. -/
noncomputable def engineArbOne {R S1 S2 : Type} (name1 name2 : String)
    (arb : Option (CFMM ℝ × ArbResult))
    (st : EngineState R S1 S2) (setPool : EngineState R S1 S2 → CFMM ℝ → EngineState R S1 S2) :
    EngineState R S1 S2 :=
  match arb with
  | none => st
  | some (p1, res) =>
      let st := setPool st p1
      { st with
        arb_volume_y := addByName name1 name2 st.arb_volume_y res.amm_name res.amount_y
        edges := addByName name1 name2 st.edges res.amm_name (-res.profit) }

/-- One routed retail trade's accumulation: volume and mark-to-fair edge. -/
def engineRetailAcc (name1 name2 : String) (fair_price : ℝ)
    (acc : (ℝ × ℝ) × (ℝ × ℝ)) (trade : RoutedTrade) : (ℝ × ℝ) × (ℝ × ℝ) :=
  let trade_edge :=
    if trade.amm_buys_x then trade.amount_x * fair_price - trade.amount_y
    else trade.amount_y - trade.amount_x * fair_price
  (addByName name1 name2 acc.1 trade.amm_name trade.amount_y,
   addByName name1 name2 acc.2 trade.amm_name trade_edge)

/-- One iteration of the engine step loop: advance the fair price,
arbitrage each pool in order, generate and route the retail batch, then
snapshot the step and accumulate fees. -/
noncomputable def engineStep {R S1 S2 : Type} (M : RngModel R)
    (afterSwap1 : S1 → TradeInfo ℝ → Option (Int × Int) × S1)
    (afterSwap2 : S2 → TradeInfo ℝ → Option (Int × Int) × S2)
    (name1 name2 : String) (initial_reserves : (ℝ × ℝ) × (ℝ × ℝ))
    (initial_fair_price : ℝ) (st : EngineState R S1 S2) (t : Nat) :
    EngineState R S1 S2 :=
  let pp := st.price_process.step M
  let fair_price := pp.1
  let st := { st with price_process := pp.2 }
  -- arbitrage pool 1 then pool 2
  let st :=
    match Arbitrageur.execute_arb afterSwap1 st.s1 st.amm1 fair_price t with
    | none => st
    | some (p1, s1, res) =>
        { st with
          amm1 := p1
          s1 := s1
          arb_volume_y := addByName name1 name2 st.arb_volume_y res.amm_name res.amount_y
          edges := addByName name1 name2 st.edges res.amm_name (-res.profit) }
  let st :=
    match Arbitrageur.execute_arb afterSwap2 st.s2 st.amm2 fair_price t with
    | none => st
    | some (p2, s2, res) =>
        { st with
          amm2 := p2
          s2 := s2
          arb_volume_y := addByName name1 name2 st.arb_volume_y res.amm_name res.amount_y
          edges := addByName name1 name2 st.edges res.amm_name (-res.profit) }
  -- retail batch
  let gen := st.retail.generate_orders M
  let st := { st with retail := gen.2 }
  let routed := OrderRouter.route_orders_two afterSwap1 afterSwap2 gen.1
    st.s1 st.s2 st.amm1 st.amm2 fair_price t
  let st := { st with
    amm1 := routed.1
    s1 := routed.2.1
    amm2 := routed.2.2.1
    s2 := routed.2.2.2.1 }
  let acc := routed.2.2.2.2.foldl (engineRetailAcc name1 name2 fair_price)
    (st.retail_volume_y, st.edges)
  let st := { st with retail_volume_y := acc.1, edges := acc.2 }
  -- snapshot and fee accumulation
  let step := capture_step t fair_price st.amm1 st.amm2 initial_reserves
    initial_fair_price
  { st with
    cumulative_bid_fees :=
      (st.cumulative_bid_fees.1 + step.fees.1.1, st.cumulative_bid_fees.2 + step.fees.2.1)
    cumulative_ask_fees :=
      (st.cumulative_ask_fees.1 + step.fees.1.2, st.cumulative_ask_fees.2 + step.fees.2.2)
    steps := st.steps ++ [step] }

/-- `SimulationEngine::run`: build the price process from `seed` and the
retail trader from `seed + 1`, create and initialise the two pools
(propagating initialisation errors), run the step loop and finalise the
result.  `entropyP` and `entropyR` are the OS entropy oracles, which the
engine never uses because it always passes explicit seeds. -/
noncomputable def SimulationEngine.run {R S1 S2 : Type} (M : RngModel R)
    (entropyP entropyR : R) (cfg : SimulationConfig)
    (afterSwap1 : S1 → TradeInfo ℝ → Option (Int × Int) × S1)
    (afterInit1 : S1 → ℝ → ℝ → Option ((Int × Int) × S1)) (s1 : S1)
    (afterSwap2 : S2 → TradeInfo ℝ → Option (Int × Int) × S2)
    (afterInit2 : S2 → ℝ → ℝ → Option ((Int × Int) × S2)) (s2 : S2) :
    Option SimResult :=
  let seed := cfg.seed.getD 0
  let price_process := GBMPriceProcess.new M entropyP cfg.initial_price
    cfg.gbm_mu cfg.gbm_sigma cfg.gbm_dt (some seed)
  let retail_trader := RetailTrader.new M entropyR cfg.retail_arrival_rate
    cfg.retail_mean_size cfg.retail_size_sigma cfg.retail_buy_prob
    (some (seed + 1))
  let name1 := "submission"
  let name2 := "normalizer"
  let amm1 := CFMM.new (K := ℝ) name1 cfg.initial_x cfg.initial_y
  let amm2 := CFMM.new (K := ℝ) name2 cfg.initial_x cfg.initial_y
  match CFMM.init_pool afterInit1 s1 amm1 with
  | none => none
  | some (amm1, s1) =>
    match CFMM.init_pool afterInit2 s2 amm2 with
    | none => none
    | some (amm2, s2) =>
      let initial_fair_price := price_process.current_price
      let initial_reserves :=
        ((amm1.reserve_x, amm1.reserve_y), (amm2.reserve_x, amm2.reserve_y))
      let st0 : EngineState R S1 S2 :=
        { price_process := price_process
          retail := retail_trader
          amm1 := amm1, s1 := s1, amm2 := amm2, s2 := s2
          edges := (0, 0)
          arb_volume_y := (0, 0)
          retail_volume_y := (0, 0)
          cumulative_bid_fees := (0, 0)
          cumulative_ask_fees := (0, 0)
          steps := [] }
      let stN := (List.range cfg.n_steps).foldl
        (engineStep M afterSwap1 afterSwap2 name1 name2 initial_reserves
          initial_fair_price) st0
      let final_fair_price := stN.price_process.current_price
      let n := (cfg.n_steps : ℝ)
      let pnlOf : CFMM ℝ → ℝ × ℝ → ℝ := fun amm init =>
        let init_value := init.1 * initial_fair_price + init.2
        let reserves_value := amm.reserve_x * final_fair_price + amm.reserve_y
        let fees_value :=
          amm.accumulated_fees_x * final_fair_price + amm.accumulated_fees_y
        reserves_value + fees_value - init_value
      some
        { seed := seed
          strategies := [name1, name2]
          pnl := (pnlOf stN.amm1 initial_reserves.1, pnlOf stN.amm2 initial_reserves.2)
          edges := stN.edges
          initial_fair_price := initial_fair_price
          initial_reserves := initial_reserves
          steps := stN.steps
          arb_volume_y := stN.arb_volume_y
          retail_volume_y := stN.retail_volume_y
          average_fees :=
            ((stN.cumulative_bid_fees.1 / n, stN.cumulative_ask_fees.1 / n),
             (stN.cumulative_bid_fees.2 / n, stN.cumulative_ask_fees.2 / n)) }

/-! ### Claim C9: fixed-point multiply and divide -/

/-- C9, counterexample: the spec says `wmul(a,b) = ⌊a·b/ONE⌋` for all
signed values, but Rust `i128` division truncates toward zero: at
`a = Wad(-1)`, `b = Wad(1)` the code returns `0`, while the floor of
`(-1)·1 / 10^18` is `-1`. -/
theorem c9_wmul_floor_counterexample :
    Wad.wmul (-1) 1 = 0 ∧ ⌊(((-1 : Int) * 1 : Int) : ℚ) / ((Wad.WAD : Int) : ℚ)⌋ = -1 ∧
    Wad.wmul (-1) 1 ≠ ⌊(((-1 : Int) * 1 : Int) : ℚ) / ((Wad.WAD : Int) : ℚ)⌋ := by
  have h1 : Wad.wmul (-1) 1 = 0 := by decide
  have h2 : ⌊(((-1 : Int) * 1 : Int) : ℚ) / ((Wad.WAD : Int) : ℚ)⌋ = -1 := by
    rw [show (((-1 : Int) * 1 : Int) : ℚ) / ((Wad.WAD : Int) : ℚ)
        = -(1 / 1000000000000000000) by norm_num [Wad.WAD]]
    rw [Int.floor_eq_iff]
    norm_num
  exact ⟨h1, h2, by rw [h1, h2]; norm_num⟩

/-- C9, amended: `wmul(a,b)` is `a·b / ONE` rounded toward zero (Rust
`i128` division), which agrees with the floor whenever `a·b ≥ 0`;
`wdiv(a,b)` for `b ≠ 0` is `a·ONE / b` rounded toward zero, agreeing with
the floor when `a ≥ 0` and `b > 0`; and `wdiv(a,0) = 0`, so `wdiv` is
total and never fails. -/
theorem c9_wad_ops (a b : Int) :
    Wad.wmul a b = Int.tdiv (a * b) Wad.WAD ∧
    (0 ≤ a * b → Wad.wmul a b = ⌊((a * b : Int) : ℚ) / ((Wad.WAD : Int) : ℚ)⌋) ∧
    (b ≠ 0 → Wad.wdiv a b = Int.tdiv (a * Wad.WAD) b) ∧
    (0 ≤ a → 0 < b → Wad.wdiv a b = ⌊((a * Wad.WAD : Int) : ℚ) / ((b : Int) : ℚ)⌋) ∧
    Wad.wdiv a 0 = 0 := by
  have hWAD : (0 : Int) ≤ Wad.WAD := by norm_num [Wad.WAD]
  refine ⟨rfl, ?_, ?_, ?_, by simp [Wad.wdiv]⟩
  · intro h
    have hfl : ⌊((a * b : Int) : ℚ) / ((Wad.WAD : Int) : ℚ)⌋
        = (a * b) / Wad.WAD := by
      rw [show ((Wad.WAD : Int) : ℚ) = ((1000000000000000000 : Nat) : ℚ) by
        norm_num [Wad.WAD]]
      rw [Rat.floor_intCast_div_natCast]
      norm_num [Wad.WAD]
    rw [hfl, Wad.wmul, Int.tdiv_eq_ediv h hWAD]
  · intro hb
    simp [Wad.wdiv, hb]
  · intro ha hb
    have hb0 : b ≠ 0 := ne_of_gt hb
    have hbn : ((b.toNat : Nat) : Int) = b := Int.toNat_of_nonneg hb.le
    have hfl : ⌊((a * Wad.WAD : Int) : ℚ) / ((b : Int) : ℚ)⌋ = (a * Wad.WAD) / b := by
      rw [show ((b : Int) : ℚ) = ((b.toNat : Nat) : ℚ) by exact_mod_cast hbn.symm]
      rw [Rat.floor_intCast_div_natCast, hbn]
    rw [hfl, Wad.wdiv, if_neg hb0, Int.tdiv_eq_ediv (by positivity) hb.le]

/-- C9, witness: the amended theorem instantiated at `a = 3·10^17`,
`b = 2·10^18` (i.e. 0.3 and 2.0 in WAD) and at a zero divisor. -/
theorem c9_wad_ops_witness :
    Wad.wmul 300000000000000000 2000000000000000000 = 600000000000000000 ∧
    Wad.wdiv 600000000000000000 2000000000000000000 = 300000000000000000 ∧
    Wad.wdiv 600000000000000000 0 = 0 := by
  have h := c9_wad_ops 300000000000000000 2000000000000000000
  have h2 := c9_wad_ops 600000000000000000 2000000000000000000
  refine ⟨?_, ?_, (c9_wad_ops 600000000000000000 0).2.2.2.2⟩
  · rw [h.1]; decide
  · rw [h2.2.2.1 (by decide)]; decide

/-! ### Claim C8: ABI fee-pair decoding -/

/-- Evaluation of `decode_u256` on a 32-byte word: it succeeds exactly
when the upper 16 bytes are zero. -/
theorem decode_u256_eq (l : List Nat) (h : l.length = 32) :
    decode_u256 l =
      if ∀ b ∈ l.take 16, b = 0 then some (beBytesToNat (l.drop 16)) else none := by
  rw [decode_u256, if_neg (by simp [h])]
  by_cases hz : ∀ b ∈ l.take 16, b = 0
  · rw [if_pos hz, if_neg]
    simp only [List.any_eq_true, bne_iff_ne, not_exists]
    intro b
    intro hb
    exact absurd (hz b hb.1) hb.2
  · rw [if_neg hz, if_pos]
    simp only [List.any_eq_true, bne_iff_ne]
    push_neg at hz
    obtain ⟨b, hb, hb0⟩ := hz
    exact ⟨b, hb, hb0⟩

/-- C8: `decode_fee_pair` returns a fee pair exactly when the data is at
least 64 bytes and each of the two 32-byte big-endian words has its upper
16 bytes zero and value at most `MAX_FEE`; every failure surfaces as the
`InvalidReturnData` error in the strategy host, and every success is
passed through. -/
theorem c8_decode_fee_pair (data : List Nat) :
    ((decode_fee_pair data).isSome ↔
      (64 ≤ data.length ∧
       (∀ b ∈ data.take 16, b = 0) ∧
       (∀ b ∈ (data.drop 32).take 16, b = 0) ∧
       beBytesToNat ((data.take 32).drop 16) ≤ Wad.MAX_FEE.toNat ∧
       beBytesToNat (((data.drop 32).take 32).drop 16) ≤ Wad.MAX_FEE.toNat)) ∧
    (decode_fee_pair data = none →
      decode_fee_pair_or_err data = Except.error EVMErrorKind.invalidReturnData) ∧
    (∀ pr, decode_fee_pair data = some pr →
      decode_fee_pair_or_err data = Except.ok pr) := by
  refine ⟨?_, ?_, ?_⟩
  · by_cases hlen : data.length < 64
    · rw [decode_fee_pair, if_pos hlen]
      simp only [Option.isSome_none, Bool.false_eq_true, false_iff]
      intro hc
      exact absurd hc.1 (by omega)
    · have h1 : (data.take 32).length = 32 := by
        rw [List.length_take]; omega
      have h2 : ((data.drop 32).take 32).length = 32 := by
        rw [List.length_take, List.length_drop]; omega
      have ht : (data.take 32).take 16 = data.take 16 := by
        rw [List.take_take]; norm_num
      rw [decode_fee_pair, if_neg hlen, decode_u256_eq _ h1, decode_u256_eq _ h2, ht]
      have htt : ((data.drop 32).take 32).take 16 = (data.drop 32).take 16 := by
        rw [List.take_take]; norm_num
      rw [htt]
      by_cases hz1 : ∀ b ∈ data.take 16, b = 0
      · by_cases hz2 : ∀ b ∈ (data.drop 32).take 16, b = 0
        · rw [if_pos hz1, if_pos hz2]
          simp only [Option.some_bind]
          by_cases hmax : Wad.MAX_FEE.toNat < beBytesToNat ((data.take 32).drop 16) ∨
              Wad.MAX_FEE.toNat < beBytesToNat (((data.drop 32).take 32).drop 16)
          · simp only [if_pos hmax, Option.isSome_none, Bool.false_eq_true, false_iff]
            intro hc
            rcases hmax with hm | hm
            · exact absurd hc.2.2.2.1 (by omega)
            · exact absurd hc.2.2.2.2 (by omega)
          · push_neg at hmax
            rw [if_neg (by push_neg; exact hmax)]
            have hfit1 : beBytesToNat ((data.take 32).drop 16) < 2 ^ 127 := by
              have := hmax.1
              have hM : Wad.MAX_FEE.toNat = 100000000000000000 := by decide
              omega
            have hfit2 : beBytesToNat (((data.drop 32).take 32).drop 16) < 2 ^ 127 := by
              have := hmax.2
              have hM : Wad.MAX_FEE.toNat = 100000000000000000 := by decide
              omega
            rw [i128_try_from, if_pos hfit1, i128_try_from, if_pos hfit2]
            simp only [Option.some_bind, Option.isSome_some, true_iff]
            exact ⟨by omega, hz1, hz2, hmax.1, hmax.2⟩
        · rw [if_pos hz1, if_neg hz2]
          simp only [Option.some_bind, Option.none_bind, Option.isSome_none,
            Bool.false_eq_true, false_iff]
          intro hc
          exact hz2 hc.2.2.1
      · rw [if_neg hz1]
        simp only [Option.none_bind, Option.isSome_none, Bool.false_eq_true, false_iff]
        intro hc
        exact hz1 hc.2.1
  · intro h
    rw [decode_fee_pair_or_err, h]
  · intro pr h
    rw [decode_fee_pair_or_err, h]

/-- C8, witness: 64 zero bytes decode to the fee pair `(0, 0)`; a single
nonzero upper byte makes decoding fail with `InvalidReturnData`. -/
theorem c8_decode_fee_pair_witness :
    (decode_fee_pair (List.replicate 64 0)).isSome = true ∧
    decode_fee_pair_or_err (1 :: List.replicate 63 0) =
      Except.error EVMErrorKind.invalidReturnData := by
  constructor
  · exact (c8_decode_fee_pair (List.replicate 64 0)).1.mpr
      (by refine ⟨by decide, ?_, ?_, by decide, by decide⟩ <;> decide)
  · exact (c8_decode_fee_pair (1 :: List.replicate 63 0)).2.1 (by decide)

/-! ### Pool lemmas: quote and execute characterizations -/

/-- The data-model invariant on stored fees (spec section 3): each fee is
within `[0, MAX_FEE]`. -/
def FeeQuote.inRange (f : FeeQuote) : Prop :=
  0 ≤ f.bid_fee ∧ f.bid_fee ≤ Wad.MAX_FEE ∧ 0 ≤ f.ask_fee ∧ f.ask_fee ≤ Wad.MAX_FEE

instance (f : FeeQuote) : Decidable (FeeQuote.inRange f) := by
  unfold FeeQuote.inRange; infer_instance

theorem wadToK_nonneg {w : Int} (h : 0 ≤ w) : 0 ≤ wadToK K w :=
  div_nonneg (by exact_mod_cast h) (by norm_num [Wad.WAD])

theorem wadToK_lt_one {w : Int} (h : w ≤ Wad.MAX_FEE) : wadToK K w < 1 := by
  rw [wadToK, div_lt_one (by norm_num [Wad.WAD])]
  calc (w : K) ≤ ((Wad.MAX_FEE : Int) : K) := by exact_mod_cast h
    _ < ((Wad.WAD : Int) : K) := by
        norm_num [Wad.MAX_FEE, Wad.WAD]

/-- For an in-range fee the `f64` clamp of `1 - fee` to `[0,1]` is the
identity. -/
theorem fclamp_gamma_eq {w : Int} (h0 : 0 ≤ w) (h1 : w ≤ Wad.MAX_FEE) :
    fclamp (1 - wadToK K w) 0 1 = 1 - wadToK K w := by
  have ha : (0 : K) ≤ 1 - wadToK K w := by
    have := wadToK_lt_one (K := K) h1
    linarith
  have hb : 1 - wadToK K w ≤ 1 := by
    have := wadToK_nonneg (K := K) h0
    linarith
  rw [fclamp, max_eq_left ha, min_eq_left hb]

theorem gamma_pos {w : Int} (h1 : w ≤ Wad.MAX_FEE) : (0 : K) < 1 - wadToK K w := by
  have := wadToK_lt_one (K := K) h1
  linarith

/-- `quote_buy_x` with both guards passing. -/
theorem quote_buy_x_eq_of {p : CFMM K} {a : K} (ha : ¬ a ≤ 0)
    (hg : ¬ fclamp (1 - wadToK K p.current_fees.bid_fee) 0 1 ≤ 0) :
    p.quote_buy_x a =
      if 0 < p.reserve_y - p.reserve_x * p.reserve_y /
          (p.reserve_x + a * fclamp (1 - wadToK K p.current_fees.bid_fee) 0 1)
      then (p.reserve_y - p.reserve_x * p.reserve_y /
          (p.reserve_x + a * fclamp (1 - wadToK K p.current_fees.bid_fee) 0 1),
        a * wadToK K p.current_fees.bid_fee)
      else (0, 0) := by
  simp only [CFMM.quote_buy_x]
  rw [if_neg ha, if_neg hg]

/-- A positive `quote_buy_x` output pins down every intermediate value. -/
theorem quote_buy_x_fst_pos {p : CFMM K} {a : K} (h : 0 < (p.quote_buy_x a).1) :
    ¬ a ≤ 0 ∧ ¬ fclamp (1 - wadToK K p.current_fees.bid_fee) 0 1 ≤ 0 ∧
    0 < p.reserve_y - p.reserve_x * p.reserve_y /
        (p.reserve_x + a * fclamp (1 - wadToK K p.current_fees.bid_fee) 0 1) ∧
    p.quote_buy_x a =
      (p.reserve_y - p.reserve_x * p.reserve_y /
          (p.reserve_x + a * fclamp (1 - wadToK K p.current_fees.bid_fee) 0 1),
        a * wadToK K p.current_fees.bid_fee) := by
  by_cases ha : a ≤ 0
  · rw [CFMM.quote_buy_x, if_pos ha] at h
    norm_num at h
  by_cases hg : fclamp (1 - wadToK K p.current_fees.bid_fee) 0 1 ≤ 0
  · simp only [CFMM.quote_buy_x] at h
    rw [if_neg ha, if_pos hg] at h
    norm_num at h
  rw [quote_buy_x_eq_of ha hg] at h ⊢
  by_cases hy : 0 < p.reserve_y - p.reserve_x * p.reserve_y /
      (p.reserve_x + a * fclamp (1 - wadToK K p.current_fees.bid_fee) 0 1)
  · exact ⟨ha, hg, hy, by rw [if_pos hy]⟩
  · rw [if_neg hy] at h
    norm_num at h

/-- `quote_sell_x` with all three guards passing. -/
theorem quote_sell_x_eq_of {p : CFMM K} {a : K}
    (ha : ¬ (a ≤ 0 ∨ p.reserve_x ≤ a))
    (hg : ¬ fclamp (1 - wadToK K p.current_fees.ask_fee) 0 1 ≤ 0)
    (hn : ¬ p.reserve_x * p.reserve_y / (p.reserve_x - a) - p.reserve_y ≤ 0) :
    p.quote_sell_x a =
      ((p.reserve_x * p.reserve_y / (p.reserve_x - a) - p.reserve_y) /
          fclamp (1 - wadToK K p.current_fees.ask_fee) 0 1,
        (p.reserve_x * p.reserve_y / (p.reserve_x - a) - p.reserve_y) /
          fclamp (1 - wadToK K p.current_fees.ask_fee) 0 1 -
          (p.reserve_x * p.reserve_y / (p.reserve_x - a) - p.reserve_y)) := by
  simp only [CFMM.quote_sell_x]
  rw [if_neg ha, if_neg hg, if_neg hn]

/-- A positive `quote_sell_x` output pins down every intermediate value. -/
theorem quote_sell_x_fst_pos {p : CFMM K} {a : K} (h : 0 < (p.quote_sell_x a).1) :
    ¬ (a ≤ 0 ∨ p.reserve_x ≤ a) ∧
    ¬ fclamp (1 - wadToK K p.current_fees.ask_fee) 0 1 ≤ 0 ∧
    ¬ p.reserve_x * p.reserve_y / (p.reserve_x - a) - p.reserve_y ≤ 0 ∧
    p.quote_sell_x a =
      ((p.reserve_x * p.reserve_y / (p.reserve_x - a) - p.reserve_y) /
          fclamp (1 - wadToK K p.current_fees.ask_fee) 0 1,
        (p.reserve_x * p.reserve_y / (p.reserve_x - a) - p.reserve_y) /
          fclamp (1 - wadToK K p.current_fees.ask_fee) 0 1 -
          (p.reserve_x * p.reserve_y / (p.reserve_x - a) - p.reserve_y)) := by
  by_cases ha : a ≤ 0 ∨ p.reserve_x ≤ a
  · rw [CFMM.quote_sell_x, if_pos ha] at h
    norm_num at h
  by_cases hg : fclamp (1 - wadToK K p.current_fees.ask_fee) 0 1 ≤ 0
  · simp only [CFMM.quote_sell_x] at h
    rw [if_neg ha, if_pos hg] at h
    norm_num at h
  by_cases hn : p.reserve_x * p.reserve_y / (p.reserve_x - a) - p.reserve_y ≤ 0
  · simp only [CFMM.quote_sell_x] at h
    rw [if_neg ha, if_neg hg, if_pos hn] at h
    norm_num at h
  exact ⟨ha, hg, hn, quote_sell_x_eq_of ha hg hn⟩

/-- `quote_x_for_y` with both guards passing. -/
theorem quote_x_for_y_eq_of {p : CFMM K} {a : K} (ha : ¬ a ≤ 0)
    (hg : ¬ fclamp (1 - wadToK K p.current_fees.ask_fee) 0 1 ≤ 0) :
    p.quote_x_for_y a =
      if 0 < p.reserve_x - p.reserve_x * p.reserve_y /
          (p.reserve_y + a * fclamp (1 - wadToK K p.current_fees.ask_fee) 0 1)
      then (p.reserve_x - p.reserve_x * p.reserve_y /
          (p.reserve_y + a * fclamp (1 - wadToK K p.current_fees.ask_fee) 0 1),
        a * wadToK K p.current_fees.ask_fee)
      else (0, 0) := by
  simp only [CFMM.quote_x_for_y]
  rw [if_neg ha, if_neg hg]

/-- A positive `quote_x_for_y` output pins down every intermediate value. -/
theorem quote_x_for_y_fst_pos {p : CFMM K} {a : K} (h : 0 < (p.quote_x_for_y a).1) :
    ¬ a ≤ 0 ∧ ¬ fclamp (1 - wadToK K p.current_fees.ask_fee) 0 1 ≤ 0 ∧
    0 < p.reserve_x - p.reserve_x * p.reserve_y /
        (p.reserve_y + a * fclamp (1 - wadToK K p.current_fees.ask_fee) 0 1) ∧
    p.quote_x_for_y a =
      (p.reserve_x - p.reserve_x * p.reserve_y /
          (p.reserve_y + a * fclamp (1 - wadToK K p.current_fees.ask_fee) 0 1),
        a * wadToK K p.current_fees.ask_fee) := by
  by_cases ha : a ≤ 0
  · rw [CFMM.quote_x_for_y, if_pos ha] at h
    norm_num at h
  by_cases hg : fclamp (1 - wadToK K p.current_fees.ask_fee) 0 1 ≤ 0
  · simp only [CFMM.quote_x_for_y] at h
    rw [if_neg ha, if_pos hg] at h
    norm_num at h
  rw [quote_x_for_y_eq_of ha hg] at h ⊢
  by_cases hy : 0 < p.reserve_x - p.reserve_x * p.reserve_y /
      (p.reserve_y + a * fclamp (1 - wadToK K p.current_fees.ask_fee) 0 1)
  · exact ⟨ha, hg, hy, by rw [if_pos hy]⟩
  · rw [if_neg hy] at h
    norm_num at h

/-- The fee quote stored after the strategy call: the clamped pair on
success, the previous quote on any host error. -/
def feesAfter (afterSwap : S → TradeInfo K → Option (Int × Int) × S)
    (s : S) (f : FeeQuote) (ti : TradeInfo K) : FeeQuote :=
  match (afterSwap s ti).1 with
  | some (b, a) => ⟨Wad.clamp_fee b, Wad.clamp_fee a⟩
  | none => f

theorem update_fees_eq (afterSwap : S → TradeInfo K → Option (Int × Int) × S)
    (s : S) (p : CFMM K) (ti : TradeInfo K) :
    CFMM.update_fees afterSwap s p ti =
      ({ p with current_fees := feesAfter afterSwap s p.current_fees ti },
        (afterSwap s ti).2) := by
  rw [CFMM.update_fees, feesAfter]
  rcases h : afterSwap s ti with ⟨o, s1⟩
  rcases o with _ | ⟨b, a⟩ <;> simp [h]

/-- Full characterization of a successful `execute_buy_x`. -/
theorem execute_buy_x_some {afterSwap : S → TradeInfo K → Option (Int × Int) × S}
    {s : S} {p : CFMM K} {a : K} {t : Nat} {p1 : CFMM K} {s1 : S} {r : TradeResult K}
    (h : CFMM.execute_buy_x afterSwap s p a t = some (p1, s1, r)) :
    0 < (p.quote_buy_x a).1 ∧
    r = ⟨⟨true, a, (p.quote_buy_x a).1, t, p.reserve_x + (a - (p.quote_buy_x a).2),
          p.reserve_y - (p.quote_buy_x a).1⟩, (p.quote_buy_x a).2⟩ ∧
    s1 = (afterSwap s r.trade_info).2 ∧
    p1 = { p with
      reserve_x := p.reserve_x + (a - (p.quote_buy_x a).2)
      reserve_y := p.reserve_y - (p.quote_buy_x a).1
      accumulated_fees_x := p.accumulated_fees_x + (p.quote_buy_x a).2
      current_fees := feesAfter afterSwap s p.current_fees r.trade_info } := by
  simp only [CFMM.execute_buy_x] at h
  split_ifs at h with hq
  rw [update_fees_eq] at h
  simp only [Option.some.injEq, Prod.mk.injEq] at h
  obtain ⟨h1, h2, h3⟩ := h
  refine ⟨lt_of_not_le hq, h3.symm, ?_, ?_⟩
  · rw [← h3, ← h2]
  · rw [← h3, ← h1]

/-- Full characterization of a successful `execute_sell_x`. -/
theorem execute_sell_x_some {afterSwap : S → TradeInfo K → Option (Int × Int) × S}
    {s : S} {p : CFMM K} {a : K} {t : Nat} {p1 : CFMM K} {s1 : S} {r : TradeResult K}
    (h : CFMM.execute_sell_x afterSwap s p a t = some (p1, s1, r)) :
    0 < (p.quote_sell_x a).1 ∧
    r = ⟨⟨false, a, (p.quote_sell_x a).1, t, p.reserve_x - a,
          p.reserve_y + ((p.quote_sell_x a).1 - (p.quote_sell_x a).2)⟩,
        (p.quote_sell_x a).2⟩ ∧
    s1 = (afterSwap s r.trade_info).2 ∧
    p1 = { p with
      reserve_x := p.reserve_x - a
      reserve_y := p.reserve_y + ((p.quote_sell_x a).1 - (p.quote_sell_x a).2)
      accumulated_fees_y := p.accumulated_fees_y + (p.quote_sell_x a).2
      current_fees := feesAfter afterSwap s p.current_fees r.trade_info } := by
  simp only [CFMM.execute_sell_x] at h
  split_ifs at h with hq
  rw [update_fees_eq] at h
  simp only [Option.some.injEq, Prod.mk.injEq] at h
  obtain ⟨h1, h2, h3⟩ := h
  refine ⟨lt_of_not_le hq, h3.symm, ?_, ?_⟩
  · rw [← h3, ← h2]
  · rw [← h3, ← h1]

/-- Full characterization of a successful `execute_buy_x_with_y`. -/
theorem execute_buy_x_with_y_some {afterSwap : S → TradeInfo K → Option (Int × Int) × S}
    {s : S} {p : CFMM K} {a : K} {t : Nat} {p1 : CFMM K} {s1 : S} {r : TradeResult K}
    (h : CFMM.execute_buy_x_with_y afterSwap s p a t = some (p1, s1, r)) :
    0 < (p.quote_x_for_y a).1 ∧
    r = ⟨⟨false, (p.quote_x_for_y a).1, a, t, p.reserve_x - (p.quote_x_for_y a).1,
          p.reserve_y + (a - (p.quote_x_for_y a).2)⟩, (p.quote_x_for_y a).2⟩ ∧
    s1 = (afterSwap s r.trade_info).2 ∧
    p1 = { p with
      reserve_x := p.reserve_x - (p.quote_x_for_y a).1
      reserve_y := p.reserve_y + (a - (p.quote_x_for_y a).2)
      accumulated_fees_y := p.accumulated_fees_y + (p.quote_x_for_y a).2
      current_fees := feesAfter afterSwap s p.current_fees r.trade_info } := by
  simp only [CFMM.execute_buy_x_with_y] at h
  split_ifs at h with hq
  rw [update_fees_eq] at h
  simp only [Option.some.injEq, Prod.mk.injEq] at h
  obtain ⟨h1, h2, h3⟩ := h
  refine ⟨lt_of_not_le hq, h3.symm, ?_, ?_⟩
  · rw [← h3, ← h2]
  · rw [← h3, ← h1]

/-- Executes succeed exactly when the underlying quote is positive. -/
theorem execute_buy_x_isSome {afterSwap : S → TradeInfo K → Option (Int × Int) × S}
    (s : S) (p : CFMM K) (a : K) (t : Nat) (hq : 0 < (p.quote_buy_x a).1) :
    (CFMM.execute_buy_x afterSwap s p a t).isSome = true := by
  simp only [CFMM.execute_buy_x]
  rw [if_neg (not_le.mpr hq)]
  rfl

theorem execute_sell_x_isSome {afterSwap : S → TradeInfo K → Option (Int × Int) × S}
    (s : S) (p : CFMM K) (a : K) (t : Nat) (hq : 0 < (p.quote_sell_x a).1) :
    (CFMM.execute_sell_x afterSwap s p a t).isSome = true := by
  simp only [CFMM.execute_sell_x]
  rw [if_neg (not_le.mpr hq)]
  rfl

theorem execute_buy_x_with_y_isSome {afterSwap : S → TradeInfo K → Option (Int × Int) × S}
    (s : S) (p : CFMM K) (a : K) (t : Nat) (hq : 0 < (p.quote_x_for_y a).1) :
    (CFMM.execute_buy_x_with_y afterSwap s p a t).isSome = true := by
  simp only [CFMM.execute_buy_x_with_y]
  rw [if_neg (not_le.mpr hq)]
  rfl

/-! ### Claim C5: quote_buy_x -/

/-- The test pool of the source's `test_quote_formulas`: reserves
`(1000, 1000)` and a symmetric 25 bps fee. -/
def pool1000 (K : Type) [LinearOrderedField K] : CFMM K :=
  { name := "test"
    reserve_x := 1000
    reserve_y := 1000
    current_fees := FeeQuote.symmetric (Wad.from_bps 25)
    initialized := false
    accumulated_fees_x := 0
    accumulated_fees_y := 0 }

/-- C5: with `f` the bid fee and `gamma = clamp(1 - f, 0, 1)`,
`quote_buy_x dx` returns `(y - x·y/(x + dx·gamma), dx·f)` when `dx > 0`,
`gamma > 0` and the output is positive, and `(0,0)` when `dx ≤ 0`,
`gamma ≤ 0` or the output is nonpositive; on the pool `(1000, 1000)` with
a 25 bps fee, `quote_buy_x 10` yields an output strictly between 9.8 and
10. -/
theorem c5_quote_buy_x (p : CFMM K) (dx : K) :
    (dx ≤ 0 → p.quote_buy_x dx = (0, 0)) ∧
    (fclamp (1 - wadToK K p.current_fees.bid_fee) 0 1 ≤ 0 →
      p.quote_buy_x dx = (0, 0)) ∧
    (0 < dx → 0 < fclamp (1 - wadToK K p.current_fees.bid_fee) 0 1 →
      (0 < p.reserve_y - p.reserve_x * p.reserve_y /
          (p.reserve_x + dx * fclamp (1 - wadToK K p.current_fees.bid_fee) 0 1) →
        p.quote_buy_x dx =
          (p.reserve_y - p.reserve_x * p.reserve_y /
              (p.reserve_x + dx * fclamp (1 - wadToK K p.current_fees.bid_fee) 0 1),
            dx * wadToK K p.current_fees.bid_fee)) ∧
      (p.reserve_y - p.reserve_x * p.reserve_y /
          (p.reserve_x + dx * fclamp (1 - wadToK K p.current_fees.bid_fee) 0 1) ≤ 0 →
        p.quote_buy_x dx = (0, 0))) ∧
    (9.8 < ((pool1000 K).quote_buy_x 10).1 ∧ ((pool1000 K).quote_buy_x 10).1 < 10) := by
  have hfee : wadToK K (pool1000 K).current_fees.bid_fee = 1 / 400 := by
    rw [show (pool1000 K).current_fees.bid_fee = 2500000000000000 by
      norm_num [pool1000, FeeQuote.symmetric, Wad.from_bps, Wad.BPS]]
    rw [wadToK]
    norm_num [Wad.WAD]
  have hγ : fclamp (1 - wadToK K (pool1000 K).current_fees.bid_fee) 0 1
      = 1 - wadToK K (pool1000 K).current_fees.bid_fee :=
    fclamp_gamma_eq
      (by norm_num [pool1000, FeeQuote.symmetric, Wad.from_bps, Wad.BPS])
      (by norm_num [pool1000, FeeQuote.symmetric, Wad.from_bps, Wad.BPS, Wad.MAX_FEE])
  have hg : ¬ fclamp (1 - wadToK K (pool1000 K).current_fees.bid_fee) 0 1 ≤ 0 := by
    rw [hγ, hfee]; norm_num
  refine ⟨?_, ?_, ?_, ?_⟩
  · intro h
    rw [CFMM.quote_buy_x, if_pos h]
  · intro hg0
    by_cases ha : dx ≤ 0
    · rw [CFMM.quote_buy_x, if_pos ha]
    · simp only [CFMM.quote_buy_x]
      rw [if_neg ha, if_pos hg0]
  · intro ha hg0
    constructor
    · intro hy
      rw [quote_buy_x_eq_of (not_le.mpr ha) (not_le.mpr hg0), if_pos hy]
    · intro hy
      rw [quote_buy_x_eq_of (not_le.mpr ha) (not_le.mpr hg0),
        if_neg (not_lt.mpr hy)]
  · rw [quote_buy_x_eq_of (by norm_num) hg, hγ, hfee]
    rw [show (pool1000 K).reserve_y = 1000 from rfl,
      show (pool1000 K).reserve_x = 1000 from rfl]
    rw [if_pos (by norm_num)]
    norm_num

/-- C5, witness: the theorem applied at the 25 bps test pool over `ℝ`,
at a rejected input and at the literal scenario. -/
theorem c5_quote_buy_x_witness :
    (pool1000 ℝ).quote_buy_x (-1) = (0, 0) ∧
    9.8 < ((pool1000 ℝ).quote_buy_x 10).1 := by
  exact ⟨(c5_quote_buy_x (pool1000 ℝ) (-1)).1 (by norm_num),
    (c5_quote_buy_x (pool1000 ℝ) 10).2.2.2.1⟩

/-! ### Claim C1: the constant product is preserved by every trade -/

/-- C1: starting from positive reserves with in-range fees, every
successful mutating trade leaves `reserve_x · reserve_y` exactly unchanged
(the fee is diverted to the side bucket and only the net input enters the
reserves).  Stated over any linear ordered field, in particular over `ℝ`,
i.e. for the `f64` arithmetic interpreted exactly over the reals. -/
theorem c1_constant_product {afterSwap : S → TradeInfo K → Option (Int × Int) × S}
    (s : S) (p : CFMM K) (t : Nat)
    (hx : 0 < p.reserve_x) (hy : 0 < p.reserve_y)
    (hf : p.current_fees.inRange) :
    (∀ a p1 s1 r, CFMM.execute_buy_x afterSwap s p a t = some (p1, s1, r) →
      p1.reserve_x * p1.reserve_y = p.reserve_x * p.reserve_y) ∧
    (∀ a p1 s1 r, CFMM.execute_sell_x afterSwap s p a t = some (p1, s1, r) →
      p1.reserve_x * p1.reserve_y = p.reserve_x * p.reserve_y) ∧
    (∀ a p1 s1 r, CFMM.execute_buy_x_with_y afterSwap s p a t = some (p1, s1, r) →
      p1.reserve_x * p1.reserve_y = p.reserve_x * p.reserve_y) := by
  obtain ⟨hb0, hb1, ha0, ha1⟩ := hf
  refine ⟨?_, ?_, ?_⟩
  · intro a p1 s1 r h
    obtain ⟨hq, hr, hs, hp⟩ := execute_buy_x_some h
    obtain ⟨ha, hg, hyp, hquote⟩ := quote_buy_x_fst_pos hq
    have hγ : fclamp (1 - wadToK K p.current_fees.bid_fee) 0 1
        = 1 - wadToK K p.current_fees.bid_fee := fclamp_gamma_eq hb0 hb1
    have hfee1 : wadToK K p.current_fees.bid_fee < 1 := wadToK_lt_one hb1
    have haa : 0 < a := lt_of_not_le ha
    have hden : 0 < p.reserve_x + a * (1 - wadToK K p.current_fees.bid_fee) := by
      have := mul_pos haa (by linarith : (0 : K) < 1 - wadToK K p.current_fees.bid_fee)
      linarith
    rw [hp]
    dsimp only
    rw [hquote, hγ]
    dsimp only
    rw [sub_sub_cancel,
      show p.reserve_x + (a - a * wadToK K p.current_fees.bid_fee)
        = p.reserve_x + a * (1 - wadToK K p.current_fees.bid_fee) by ring,
      mul_comm]
    exact div_mul_cancel₀ _ hden.ne'
  · intro a p1 s1 r h
    obtain ⟨hq, hr, hs, hp⟩ := execute_sell_x_some h
    obtain ⟨ha, hg, hn, hquote⟩ := quote_sell_x_fst_pos hq
    push_neg at ha
    have hax : a < p.reserve_x := ha.2
    have hden : (0 : K) < p.reserve_x - a := by linarith
    rw [hp]
    dsimp only
    rw [hquote]
    dsimp only
    rw [show (p.reserve_x * p.reserve_y / (p.reserve_x - a) - p.reserve_y) /
          fclamp (1 - wadToK K p.current_fees.ask_fee) 0 1 -
          ((p.reserve_x * p.reserve_y / (p.reserve_x - a) - p.reserve_y) /
            fclamp (1 - wadToK K p.current_fees.ask_fee) 0 1 -
            (p.reserve_x * p.reserve_y / (p.reserve_x - a) - p.reserve_y))
        = p.reserve_x * p.reserve_y / (p.reserve_x - a) - p.reserve_y by ring,
      show p.reserve_y + (p.reserve_x * p.reserve_y / (p.reserve_x - a) - p.reserve_y)
        = p.reserve_x * p.reserve_y / (p.reserve_x - a) by ring,
      mul_comm]
    exact div_mul_cancel₀ _ hden.ne'
  · intro a p1 s1 r h
    obtain ⟨hq, hr, hs, hp⟩ := execute_buy_x_with_y_some h
    obtain ⟨ha, hg, hxp, hquote⟩ := quote_x_for_y_fst_pos hq
    have hγ : fclamp (1 - wadToK K p.current_fees.ask_fee) 0 1
        = 1 - wadToK K p.current_fees.ask_fee := fclamp_gamma_eq ha0 ha1
    have hfee1 : wadToK K p.current_fees.ask_fee < 1 := wadToK_lt_one ha1
    have haa : 0 < a := lt_of_not_le ha
    have hden : 0 < p.reserve_y + a * (1 - wadToK K p.current_fees.ask_fee) := by
      have := mul_pos haa (by linarith : (0 : K) < 1 - wadToK K p.current_fees.ask_fee)
      linarith
    rw [hp]
    dsimp only
    rw [hquote, hγ]
    dsimp only
    rw [sub_sub_cancel,
      show p.reserve_y + (a - a * wadToK K p.current_fees.ask_fee)
        = p.reserve_y + a * (1 - wadToK K p.current_fees.ask_fee) by ring]
    exact div_mul_cancel₀ _ hden.ne'

/-- The always-erroring strategy over the unit state, used by witnesses. -/
def unitStrat : Unit → TradeInfo ℝ → Option (Int × Int) × Unit :=
  fun s _ => (none, s)

/-- A zero-fee test pool over `ℝ` with reserves `(1000, 1000)`. -/
def testPool : CFMM ℝ :=
  { name := "t"
    reserve_x := 1000
    reserve_y := 1000
    current_fees := ⟨0, 0⟩
    initialized := false
    accumulated_fees_x := 0
    accumulated_fees_y := 0 }

/-- Post-trade product of reserves, for stating closed witnesses without
anonymous binders. -/
def postProduct (z : Option (CFMM ℝ × Unit × TradeResult ℝ)) : Option ℝ :=
  z.map fun w => w.1.reserve_x * w.1.reserve_y

theorem testPool_quote_buy_x_pos : 0 < (testPool.quote_buy_x 10).1 := by
  have hg : ¬ fclamp (1 - wadToK ℝ testPool.current_fees.bid_fee) 0 1 ≤ 0 := by
    norm_num [testPool, wadToK, fclamp, Wad.WAD]
  rw [quote_buy_x_eq_of (by norm_num) hg]
  rw [show testPool.current_fees.bid_fee = 0 from rfl,
    show testPool.reserve_x = (1000 : ℝ) from rfl,
    show testPool.reserve_y = (1000 : ℝ) from rfl]
  rw [if_pos (by norm_num [wadToK, fclamp, Wad.WAD])]
  norm_num [wadToK, fclamp, Wad.WAD]

/-- C1, witness: a successful `execute_buy_x` of 10 X on the zero-fee
`(1000, 1000)` pool exists and keeps the product at `1000 · 1000`. -/
theorem c1_constant_product_witness :
    (CFMM.execute_buy_x unitStrat () testPool 10 0).isSome = true ∧
    postProduct (CFMM.execute_buy_x unitStrat () testPool 10 0) = some (1000 * 1000) := by
  have hsome : (CFMM.execute_buy_x unitStrat () testPool 10 0).isSome = true :=
    execute_buy_x_isSome () testPool 10 0 testPool_quote_buy_x_pos
  refine ⟨hsome, ?_⟩
  obtain ⟨z, hz⟩ := Option.isSome_iff_exists.mp hsome
  obtain ⟨p1, s1, r⟩ := z
  have hprod := (c1_constant_product () testPool 0 (by norm_num [testPool])
    (by norm_num [testPool]) (by constructor <;> norm_num [testPool, Wad.MAX_FEE])).1
    10 p1 s1 r hz
  rw [postProduct, hz, Option.map_some']
  rw [show testPool.reserve_x = (1000 : ℝ) from rfl,
    show testPool.reserve_y = (1000 : ℝ) from rfl] at hprod
  rw [hprod]

/-! ### Claim C7: post-trade invariants -/

/-- The fee quote stored after a strategy call stays in range. -/
theorem feesAfter_inRange {afterSwap : S → TradeInfo K → Option (Int × Int) × S}
    {s : S} {f : FeeQuote} (hf : f.inRange) (ti : TradeInfo K) :
    (feesAfter afterSwap s f ti).inRange := by
  rw [feesAfter]
  rcases (afterSwap s ti).1 with _ | ⟨b, a⟩
  · exact hf
  · exact ⟨Wad.clamp_fee_nonneg b, Wad.clamp_fee_le b,
      Wad.clamp_fee_nonneg a, Wad.clamp_fee_le a⟩

/-- Positivity of `wadToK` for a positive raw value. -/
theorem wadToK_pos {w : Int} (h : 0 < w) : 0 < wadToK K w :=
  div_pos (by exact_mod_cast h) (by norm_num [Wad.WAD])

/-- C7, amended: after every successful trade both reserves stay strictly
positive, the input-side accumulated-fee bucket increases by exactly the
fee amount — a nonnegative quantity that is strictly positive whenever
the relevant stored fee is nonzero — the other bucket is unchanged, and
the stored fees remain within `[0, MAX_FEE]`.  (The spec's unconditional
strict increase fails at a zero fee, see the counterexample.) -/
theorem c7_post_trade {afterSwap : S → TradeInfo K → Option (Int × Int) × S}
    (s : S) (p : CFMM K) (t : Nat)
    (hx : 0 < p.reserve_x) (hy : 0 < p.reserve_y)
    (hf : p.current_fees.inRange) :
    (∀ a p1 s1 r, CFMM.execute_buy_x afterSwap s p a t = some (p1, s1, r) →
      0 < p1.reserve_x ∧ 0 < p1.reserve_y ∧
      p1.accumulated_fees_x = p.accumulated_fees_x + r.fee_amount ∧
      0 ≤ r.fee_amount ∧
      (0 < p.current_fees.bid_fee → 0 < r.fee_amount) ∧
      p1.accumulated_fees_y = p.accumulated_fees_y ∧
      p1.current_fees.inRange) ∧
    (∀ a p1 s1 r, CFMM.execute_sell_x afterSwap s p a t = some (p1, s1, r) →
      0 < p1.reserve_x ∧ 0 < p1.reserve_y ∧
      p1.accumulated_fees_y = p.accumulated_fees_y + r.fee_amount ∧
      0 ≤ r.fee_amount ∧
      (0 < p.current_fees.ask_fee → 0 < r.fee_amount) ∧
      p1.accumulated_fees_x = p.accumulated_fees_x ∧
      p1.current_fees.inRange) ∧
    (∀ a p1 s1 r, CFMM.execute_buy_x_with_y afterSwap s p a t = some (p1, s1, r) →
      0 < p1.reserve_x ∧ 0 < p1.reserve_y ∧
      p1.accumulated_fees_y = p.accumulated_fees_y + r.fee_amount ∧
      0 ≤ r.fee_amount ∧
      (0 < p.current_fees.ask_fee → 0 < r.fee_amount) ∧
      p1.accumulated_fees_x = p.accumulated_fees_x ∧
      p1.current_fees.inRange) := by
  obtain ⟨hb0, hb1, ha0, ha1⟩ := hf
  refine ⟨?_, ?_, ?_⟩
  · intro a p1 s1 r h
    obtain ⟨hq, hr, hs, hp⟩ := execute_buy_x_some h
    obtain ⟨ha, hg, hyp, hquote⟩ := quote_buy_x_fst_pos hq
    have hγ : fclamp (1 - wadToK K p.current_fees.bid_fee) 0 1
        = 1 - wadToK K p.current_fees.bid_fee := fclamp_gamma_eq hb0 hb1
    have hfee1 : wadToK K p.current_fees.bid_fee < 1 := wadToK_lt_one hb1
    have hfee0 : 0 ≤ wadToK K p.current_fees.bid_fee := wadToK_nonneg hb0
    have haa : 0 < a := lt_of_not_le ha
    have hden : 0 < p.reserve_x + a * (1 - wadToK K p.current_fees.bid_fee) := by
      have := mul_pos haa (by linarith : (0 : K) < 1 - wadToK K p.current_fees.bid_fee)
      linarith
    have hfeeamt : r.fee_amount = a * wadToK K p.current_fees.bid_fee := by
      rw [hr]
      dsimp only
      rw [hquote]
    rw [hp, hr]
    dsimp only
    rw [hquote, hγ]
    dsimp only
    refine ⟨?_, ?_, rfl, ?_, ?_, rfl, feesAfter_inRange ⟨hb0, hb1, ha0, ha1⟩ _⟩
    · nlinarith
    · rw [sub_sub_cancel]
      exact div_pos (mul_pos hx hy) hden
    · positivity
    · intro hbid
      exact mul_pos haa (wadToK_pos hbid)
  · intro a p1 s1 r h
    obtain ⟨hq, hr, hs, hp⟩ := execute_sell_x_some h
    obtain ⟨ha, hg, hn, hquote⟩ := quote_sell_x_fst_pos hq
    push_neg at ha
    have hγ : fclamp (1 - wadToK K p.current_fees.ask_fee) 0 1
        = 1 - wadToK K p.current_fees.ask_fee := fclamp_gamma_eq ha0 ha1
    have hfee1 : wadToK K p.current_fees.ask_fee < 1 := wadToK_lt_one ha1
    have hfee0 : 0 ≤ wadToK K p.current_fees.ask_fee := wadToK_nonneg ha0
    have hγpos : (0 : K) < 1 - wadToK K p.current_fees.ask_fee := by linarith
    have hden : (0 : K) < p.reserve_x - a := by linarith [ha.2]
    have hnet : 0 < p.reserve_x * p.reserve_y / (p.reserve_x - a) - p.reserve_y :=
      lt_of_not_le hn
    have hsnd : (p.quote_sell_x a).2 =
        (p.reserve_x * p.reserve_y / (p.reserve_x - a) - p.reserve_y) *
          (wadToK K p.current_fees.ask_fee / (1 - wadToK K p.current_fees.ask_fee)) := by
      rw [hquote]
      dsimp only
      rw [hγ]
      field_simp
      ring
    have hdiff : (p.quote_sell_x a).1 - (p.quote_sell_x a).2 =
        p.reserve_x * p.reserve_y / (p.reserve_x - a) - p.reserve_y := by
      rw [hquote]
      dsimp only
      ring
    rw [hp, hr]
    dsimp only
    refine ⟨by linarith, ?_, rfl, ?_, ?_, rfl, feesAfter_inRange ⟨hb0, hb1, ha0, ha1⟩ _⟩
    · rw [hdiff]
      have : 0 < p.reserve_x * p.reserve_y / (p.reserve_x - a) := by positivity
      linarith
    · rw [hsnd]
      exact mul_nonneg hnet.le (div_nonneg hfee0 hγpos.le)
    · intro hask
      rw [hsnd]
      exact mul_pos hnet (div_pos (wadToK_pos hask) hγpos)
  · intro a p1 s1 r h
    obtain ⟨hq, hr, hs, hp⟩ := execute_buy_x_with_y_some h
    obtain ⟨ha, hg, hxp, hquote⟩ := quote_x_for_y_fst_pos hq
    have hγ : fclamp (1 - wadToK K p.current_fees.ask_fee) 0 1
        = 1 - wadToK K p.current_fees.ask_fee := fclamp_gamma_eq ha0 ha1
    have hfee1 : wadToK K p.current_fees.ask_fee < 1 := wadToK_lt_one ha1
    have hfee0 : 0 ≤ wadToK K p.current_fees.ask_fee := wadToK_nonneg ha0
    have haa : 0 < a := lt_of_not_le ha
    have hden : 0 < p.reserve_y + a * (1 - wadToK K p.current_fees.ask_fee) := by
      have := mul_pos haa (by linarith : (0 : K) < 1 - wadToK K p.current_fees.ask_fee)
      linarith
    rw [hp, hr]
    dsimp only
    rw [hquote, hγ]
    dsimp only
    refine ⟨?_, ?_, rfl, ?_, ?_, rfl, feesAfter_inRange ⟨hb0, hb1, ha0, ha1⟩ _⟩
    · rw [sub_sub_cancel]
      exact div_pos (mul_pos hx hy) hden
    · nlinarith
    · positivity
    · intro hask
      exact mul_pos haa (wadToK_pos hask)

/-- Post-trade input-side accumulated fees, for closed statements. -/
def postAccX (z : Option (CFMM ℝ × Unit × TradeResult ℝ)) : Option ℝ :=
  z.map fun w => w.1.accumulated_fees_x

/-- C7, counterexample to the unconditional strict increase: on a
zero-fee pool a buy of 10 X succeeds but leaves `accumulated_fees_x`
exactly where it started, so the input-side bucket does not strictly
increase. -/
theorem c7_strict_increase_counterexample :
    (CFMM.execute_buy_x unitStrat () testPool 10 0).isSome = true ∧
    testPool.accumulated_fees_x = 0 ∧
    postAccX (CFMM.execute_buy_x unitStrat () testPool 10 0) = some 0 := by
  have hsome : (CFMM.execute_buy_x unitStrat () testPool 10 0).isSome = true :=
    execute_buy_x_isSome () testPool 10 0 testPool_quote_buy_x_pos
  refine ⟨hsome, rfl, ?_⟩
  obtain ⟨z, hz⟩ := Option.isSome_iff_exists.mp hsome
  obtain ⟨p1, s1, r⟩ := z
  obtain ⟨hq, hr, hs, hp⟩ := execute_buy_x_some hz
  obtain ⟨ha, hg, hyp, hquote⟩ := quote_buy_x_fst_pos hq
  rw [postAccX, hz, Option.map_some']
  rw [hp]
  dsimp only
  rw [hquote]
  dsimp only
  rw [show testPool.accumulated_fees_x = (0 : ℝ) from rfl,
    show testPool.current_fees.bid_fee = 0 from rfl]
  norm_num [wadToK]

/-- C7, witness for the amended theorem: on the `(1000, 1000)` pool with
25 bps fees a buy of 10 X succeeds and pays a strictly positive fee into
the X bucket. -/
theorem c7_post_trade_witness :
    (CFMM.execute_buy_x unitStrat () (pool1000 ℝ) 10 0).isSome = true ∧
    postAccX (CFMM.execute_buy_x unitStrat () (pool1000 ℝ) 10 0) = some (1 / 40) ∧
    (0 : ℝ) < 1 / 40 := by
  have hfee : wadToK ℝ (pool1000 ℝ).current_fees.bid_fee = 1 / 400 := by
    rw [show (pool1000 ℝ).current_fees.bid_fee = 2500000000000000 by
      norm_num [pool1000, FeeQuote.symmetric, Wad.from_bps, Wad.BPS]]
    rw [wadToK]
    norm_num [Wad.WAD]
  have hγ : fclamp (1 - wadToK ℝ (pool1000 ℝ).current_fees.bid_fee) 0 1
      = 1 - wadToK ℝ (pool1000 ℝ).current_fees.bid_fee :=
    fclamp_gamma_eq
      (by norm_num [pool1000, FeeQuote.symmetric, Wad.from_bps, Wad.BPS])
      (by norm_num [pool1000, FeeQuote.symmetric, Wad.from_bps, Wad.BPS, Wad.MAX_FEE])
  have hg : ¬ fclamp (1 - wadToK ℝ (pool1000 ℝ).current_fees.bid_fee) 0 1 ≤ 0 := by
    rw [hγ, hfee]; norm_num
  have hq : 0 < ((pool1000 ℝ).quote_buy_x 10).1 := by
    rw [quote_buy_x_eq_of (by norm_num) hg, hγ, hfee]
    rw [show (pool1000 ℝ).reserve_y = (1000 : ℝ) from rfl,
      show (pool1000 ℝ).reserve_x = (1000 : ℝ) from rfl]
    rw [if_pos (by norm_num)]
    norm_num
  have hsome : (CFMM.execute_buy_x unitStrat () (pool1000 ℝ) 10 0).isSome = true :=
    execute_buy_x_isSome () (pool1000 ℝ) 10 0 hq
  refine ⟨hsome, ?_, by norm_num⟩
  obtain ⟨z, hz⟩ := Option.isSome_iff_exists.mp hsome
  obtain ⟨p1, s1, r⟩ := z
  have hinv := (c7_post_trade () (pool1000 ℝ) 0 (by norm_num [pool1000])
    (by norm_num [pool1000])
    (by refine ⟨?_, ?_, ?_, ?_⟩ <;>
      norm_num [pool1000, FeeQuote.symmetric, Wad.from_bps, Wad.BPS, Wad.MAX_FEE])).1
    10 p1 s1 r hz
  obtain ⟨hq2, hr, hs, hp⟩ := execute_buy_x_some hz
  obtain ⟨ha, hgq, hyp, hquote⟩ := quote_buy_x_fst_pos hq2
  rw [postAccX, hz, Option.map_some']
  rw [hinv.2.2.1]
  rw [show r.fee_amount = ((pool1000 ℝ).quote_buy_x 10).2 by rw [hr]]
  rw [hquote]
  rw [show (pool1000 ℝ).accumulated_fees_x = (0 : ℝ) from rfl, hfee]
  norm_num

/-! ### Claim C6: after_swap errors are swallowed, initialization errors
propagate -/

/-- C6: a trade whose quote is positive always completes; after it, the
reserves and fee bucket are updated from the trade data alone; the stored
fee quote is exactly the previous one when the `after_swap` host call
errs, and the clamped returned pair when it succeeds (the clamp lands in
`[0, MAX_FEE]`); an `after_initialize` error is propagated out of
`initialize`. -/
theorem c6_error_handling {afterSwap : S → TradeInfo K → Option (Int × Int) × S}
    (s : S) (p : CFMM K) (t : Nat) :
    (∀ a, 0 < (p.quote_buy_x a).1 →
      (CFMM.execute_buy_x afterSwap s p a t).isSome = true) ∧
    (∀ a, 0 < (p.quote_sell_x a).1 →
      (CFMM.execute_sell_x afterSwap s p a t).isSome = true) ∧
    (∀ a, 0 < (p.quote_x_for_y a).1 →
      (CFMM.execute_buy_x_with_y afterSwap s p a t).isSome = true) ∧
    (∀ a p1 s1 r, CFMM.execute_buy_x afterSwap s p a t = some (p1, s1, r) →
      p1.reserve_x = p.reserve_x + (a - r.fee_amount) ∧
      p1.reserve_y = p.reserve_y - r.trade_info.amount_y ∧
      p1.accumulated_fees_x = p.accumulated_fees_x + r.fee_amount ∧
      ((afterSwap s r.trade_info).1 = none → p1.current_fees = p.current_fees) ∧
      (∀ b aa, (afterSwap s r.trade_info).1 = some (b, aa) →
        p1.current_fees = ⟨Wad.clamp_fee b, Wad.clamp_fee aa⟩)) ∧
    (∀ a p1 s1 r, CFMM.execute_sell_x afterSwap s p a t = some (p1, s1, r) →
      p1.reserve_x = p.reserve_x - r.trade_info.amount_x ∧
      p1.reserve_y = p.reserve_y + (r.trade_info.amount_y - r.fee_amount) ∧
      p1.accumulated_fees_y = p.accumulated_fees_y + r.fee_amount ∧
      ((afterSwap s r.trade_info).1 = none → p1.current_fees = p.current_fees) ∧
      (∀ b aa, (afterSwap s r.trade_info).1 = some (b, aa) →
        p1.current_fees = ⟨Wad.clamp_fee b, Wad.clamp_fee aa⟩)) ∧
    (∀ a p1 s1 r, CFMM.execute_buy_x_with_y afterSwap s p a t = some (p1, s1, r) →
      p1.reserve_x = p.reserve_x - r.trade_info.amount_x ∧
      p1.reserve_y = p.reserve_y + (a - r.fee_amount) ∧
      p1.accumulated_fees_y = p.accumulated_fees_y + r.fee_amount ∧
      ((afterSwap s r.trade_info).1 = none → p1.current_fees = p.current_fees) ∧
      (∀ b aa, (afterSwap s r.trade_info).1 = some (b, aa) →
        p1.current_fees = ⟨Wad.clamp_fee b, Wad.clamp_fee aa⟩)) ∧
    (∀ b, 0 ≤ Wad.clamp_fee b ∧ Wad.clamp_fee b ≤ Wad.MAX_FEE) ∧
    (∀ afterInit : S → K → K → Option ((Int × Int) × S),
      afterInit s p.reserve_x p.reserve_y = none →
        CFMM.init_pool afterInit s p = none) := by
  refine ⟨fun a => execute_buy_x_isSome s p a t,
    fun a => execute_sell_x_isSome s p a t,
    fun a => execute_buy_x_with_y_isSome s p a t, ?_, ?_, ?_,
    fun b => ⟨Wad.clamp_fee_nonneg b, Wad.clamp_fee_le b⟩, ?_⟩
  · intro a p1 s1 r h
    obtain ⟨hq, hr, hs, hp⟩ := execute_buy_x_some h
    have hfees : p1.current_fees = feesAfter afterSwap s p.current_fees r.trade_info := by
      rw [hp]
    refine ⟨?_, ?_, ?_, ?_, ?_⟩
    · rw [hp, hr]
    · rw [hp, hr]
    · rw [hp, hr]
    · intro hnone
      rw [hfees, feesAfter, hnone]
    · intro b aa hsome
      rw [hfees, feesAfter, hsome]
  · intro a p1 s1 r h
    obtain ⟨hq, hr, hs, hp⟩ := execute_sell_x_some h
    have hfees : p1.current_fees = feesAfter afterSwap s p.current_fees r.trade_info := by
      rw [hp]
    refine ⟨?_, ?_, ?_, ?_, ?_⟩
    · rw [hp, hr]
    · rw [hp, hr]
    · rw [hp, hr]
    · intro hnone
      rw [hfees, feesAfter, hnone]
    · intro b aa hsome
      rw [hfees, feesAfter, hsome]
  · intro a p1 s1 r h
    obtain ⟨hq, hr, hs, hp⟩ := execute_buy_x_with_y_some h
    have hfees : p1.current_fees = feesAfter afterSwap s p.current_fees r.trade_info := by
      rw [hp]
    refine ⟨?_, ?_, ?_, ?_, ?_⟩
    · rw [hp, hr]
    · rw [hp, hr]
    · rw [hp, hr]
    · intro hnone
      rw [hfees, feesAfter, hnone]
    · intro b aa hsome
      rw [hfees, feesAfter, hsome]
  · intro afterInit h
    rw [CFMM.init_pool, h]

/-- The always-erroring initializer over the unit state. -/
def unitInitFail : Unit → ℝ → ℝ → Option ((Int × Int) × Unit) :=
  fun _ _ _ => none

/-- Post-trade stored fee quote, for closed statements. -/
def postFees (z : Option (CFMM ℝ × Unit × TradeResult ℝ)) : Option FeeQuote :=
  z.map fun w => w.1.current_fees

/-- C6, witness: on the zero-fee test pool with an always-erroring
strategy the trade completes and the stored fees are exactly the old
ones, while the always-erroring initializer makes `initialize` fail. -/
theorem c6_error_handling_witness :
    (CFMM.execute_buy_x unitStrat () testPool 10 0).isSome = true ∧
    postFees (CFMM.execute_buy_x unitStrat () testPool 10 0) =
      some testPool.current_fees ∧
    CFMM.init_pool unitInitFail () testPool = none := by
  have hc := @c6_error_handling ℝ _ Unit unitStrat () testPool 0
  have hsome : (CFMM.execute_buy_x unitStrat () testPool 10 0).isSome = true :=
    hc.1 10 testPool_quote_buy_x_pos
  refine ⟨hsome, ?_, hc.2.2.2.2.2.2.2 unitInitFail rfl⟩
  obtain ⟨z, hz⟩ := Option.isSome_iff_exists.mp hsome
  obtain ⟨p1, s1, r⟩ := z
  have hfees := (hc.2.2.2.1 10 p1 s1 r hz).2.2.2.1 rfl
  rw [postFees, hz, Option.map_some', hfees]

/-! ### Claim C10: an uninitialized pool still trades at the default fee -/

/-- Flip the `initialized` flag on the pool component of an execute
result. -/
def setInit (b : Bool) (z : CFMM K × S × TradeResult K) : CFMM K × S × TradeResult K :=
  ({ z.1 with initialized := b }, z.2)

/-- C10: a freshly constructed pool carries the symmetric 30 bps default
quote and is not initialized; no quote or execute reads the
`initialized` flag (executes only carry it through); an uninitialized
pool quotes a positive trade at the default fee; and the stored fees
change only through a successful `after_swap` (or `initialize`). -/
theorem c10_uninitialized {afterSwap : S → TradeInfo K → Option (Int × Int) × S}
    (s : S) (p : CFMM K) (nm : String) (x y a : K) (b : Bool) (t : Nat) :
    (CFMM.new (K := K) nm x y).current_fees = FeeQuote.symmetric (Wad.from_bps 30) ∧
    (CFMM.new (K := K) nm x y).initialized = false ∧
    Wad.from_bps 30 = 3000000000000000 ∧
    ({ p with initialized := b } : CFMM K).quote_buy_x a = p.quote_buy_x a ∧
    ({ p with initialized := b } : CFMM K).quote_sell_x a = p.quote_sell_x a ∧
    ({ p with initialized := b } : CFMM K).quote_x_for_y a = p.quote_x_for_y a ∧
    CFMM.execute_buy_x afterSwap s { p with initialized := b } a t
      = Option.map (setInit b) (CFMM.execute_buy_x afterSwap s p a t) ∧
    CFMM.execute_sell_x afterSwap s { p with initialized := b } a t
      = Option.map (setInit b) (CFMM.execute_sell_x afterSwap s p a t) ∧
    CFMM.execute_buy_x_with_y afterSwap s { p with initialized := b } a t
      = Option.map (setInit b) (CFMM.execute_buy_x_with_y afterSwap s p a t) ∧
    0 < ((CFMM.new (K := K) "q" 1000 1000).quote_buy_x 10).1 ∧
    (∀ a' p1 s1 r, CFMM.execute_buy_x afterSwap s p a' t = some (p1, s1, r) →
      (afterSwap s r.trade_info).1 = none → p1.current_fees = p.current_fees) := by
  refine ⟨rfl, rfl, by decide, rfl, rfl, rfl, ?_, ?_, ?_, ?_, ?_⟩
  · have hqe : ({ p with initialized := b } : CFMM K).quote_buy_x a
        = p.quote_buy_x a := rfl
    simp only [CFMM.execute_buy_x, hqe]
    split_ifs with h
    · rfl
    · rw [update_fees_eq, update_fees_eq, Option.map_some']
      rfl
  · have hqe : ({ p with initialized := b } : CFMM K).quote_sell_x a
        = p.quote_sell_x a := rfl
    simp only [CFMM.execute_sell_x, hqe]
    split_ifs with h
    · rfl
    · rw [update_fees_eq, update_fees_eq, Option.map_some']
      rfl
  · have hqe : ({ p with initialized := b } : CFMM K).quote_x_for_y a
        = p.quote_x_for_y a := rfl
    simp only [CFMM.execute_buy_x_with_y, hqe]
    split_ifs with h
    · rfl
    · rw [update_fees_eq, update_fees_eq, Option.map_some']
      rfl
  · have hb0 : (0 : Int) ≤ (CFMM.new (K := K) "q" 1000 1000).current_fees.bid_fee := by
      norm_num [CFMM.new, FeeQuote.symmetric, Wad.from_bps, Wad.BPS]
    have hb1 : (CFMM.new (K := K) "q" 1000 1000).current_fees.bid_fee ≤ Wad.MAX_FEE := by
      norm_num [CFMM.new, FeeQuote.symmetric, Wad.from_bps, Wad.BPS, Wad.MAX_FEE]
    have hfee : wadToK K (CFMM.new (K := K) "q" 1000 1000).current_fees.bid_fee
        = 3 / 1000 := by
      rw [show (CFMM.new (K := K) "q" 1000 1000).current_fees.bid_fee
        = 3000000000000000 by norm_num [CFMM.new, FeeQuote.symmetric, Wad.from_bps, Wad.BPS]]
      rw [wadToK]
      norm_num [Wad.WAD]
    have hγ := fclamp_gamma_eq (K := K) hb0 hb1
    have hg : ¬ fclamp (1 - wadToK K
        (CFMM.new (K := K) "q" 1000 1000).current_fees.bid_fee) 0 1 ≤ 0 := by
      rw [hγ, hfee]; norm_num
    rw [quote_buy_x_eq_of (by norm_num) hg, hγ, hfee]
    rw [show (CFMM.new (K := K) "q" 1000 1000).reserve_y = 1000 from rfl,
      show (CFMM.new (K := K) "q" 1000 1000).reserve_x = 1000 from rfl]
    rw [if_pos (by norm_num)]
    norm_num
  · intro a' p1 s1 r h hnone
    obtain ⟨hq, hr, hs, hp⟩ := execute_buy_x_some h
    rw [hp]
    dsimp only
    rw [feesAfter, hnone]

/-- C10, witness: the flag-independence equations applied to the test
pool, plus the fee-retention implication discharged on the always-erroring
strategy. -/
theorem c10_uninitialized_witness :
    ({ testPool with initialized := true } : CFMM ℝ).quote_buy_x 10
      = testPool.quote_buy_x 10 ∧
    0 < ((CFMM.new (K := ℝ) "q" 1000 1000).quote_buy_x 10).1 ∧
    postFees (CFMM.execute_buy_x unitStrat () testPool 10 0) =
      some testPool.current_fees := by
  have hc := @c10_uninitialized ℝ _ Unit unitStrat () testPool "q"
    (1000 : ℝ) 1000 10 true 0
  refine ⟨hc.2.2.2.1, hc.2.2.2.2.2.2.2.2.2.1, ?_⟩
  have hsome : (CFMM.execute_buy_x unitStrat () testPool 10 0).isSome = true :=
    execute_buy_x_isSome () testPool 10 0 testPool_quote_buy_x_pos
  obtain ⟨z, hz⟩ := Option.isSome_iff_exists.mp hsome
  obtain ⟨p1, s1, r⟩ := z
  have hfees := hc.2.2.2.2.2.2.2.2.2.2 10 p1 s1 r hz rfl
  rw [postFees, hz, Option.map_some', hfees]

/-! ### Claim C3: the arbitrageur's closed-form trade -/

/-- Wrap an execute result into an arbitrage result (the `Some(ArbResult
{...})` constructed after the `?` in the source). -/
def arbWrap {S : Type} (name : String) (profit : ℝ) (side : String)
    (amount_x amount_y : ℝ) (z : CFMM ℝ × S × TradeResult ℝ) :
    CFMM ℝ × S × ArbResult :=
  (z.1, z.2.1, ⟨name, profit, side, amount_x, amount_y⟩)

/-- C3: against fair price `fp`, writing `spot = y/x`,
`γa = 1 − ask_fee`, `γb = 1 − bid_fee`,
`amtS = min (x − √(k/(γa·fp))) (0.99·x)` and
`amtB = (√(k·γb/fp) − x)/γb`:
if `spot < fp` with `γa > 0`, `fp > 0`, `amtS > 0` and profit
`amtS·fp − y_in > 0` the arbitrageur executes `sell_x amtS`; if
`spot > fp` with `γb > 0`, `fp > 0`, `amtB > 0` and profit
`y_out − amtB·fp > 0` it executes `buy_x amtB`; and when `spot = fp`, or
the relevant `γ ≤ 0`, or `fp ≤ 0`, or the amount or profit is
nonpositive, it returns `none` — which in this embedding leaves the pool
untouched. -/
theorem c3_execute_arb {S : Type}
    (afterSwap : S → TradeInfo ℝ → Option (Int × Int) × S) (s : S)
    (amm : CFMM ℝ) (fp : ℝ) (t : Nat)
    (hx : 0 < amm.reserve_x) (hy : 0 < amm.reserve_y)
    (hf : amm.current_fees.inRange) :
    (amm.reserve_y / amm.reserve_x < fp →
     0 < 1 - wadToK ℝ amm.current_fees.ask_fee →
     0 < fp →
     0 < min (amm.reserve_x - Real.sqrt (amm.reserve_x * amm.reserve_y /
         ((1 - wadToK ℝ amm.current_fees.ask_fee) * fp))) (amm.reserve_x * 0.99) →
     0 < min (amm.reserve_x - Real.sqrt (amm.reserve_x * amm.reserve_y /
           ((1 - wadToK ℝ amm.current_fees.ask_fee) * fp))) (amm.reserve_x * 0.99) * fp -
         (amm.quote_sell_x (min (amm.reserve_x - Real.sqrt (amm.reserve_x * amm.reserve_y /
           ((1 - wadToK ℝ amm.current_fees.ask_fee) * fp))) (amm.reserve_x * 0.99))).1 →
     Arbitrageur.execute_arb afterSwap s amm fp t =
       Option.map (arbWrap amm.name
         (min (amm.reserve_x - Real.sqrt (amm.reserve_x * amm.reserve_y /
             ((1 - wadToK ℝ amm.current_fees.ask_fee) * fp))) (amm.reserve_x * 0.99) * fp -
           (amm.quote_sell_x (min (amm.reserve_x - Real.sqrt (amm.reserve_x * amm.reserve_y /
             ((1 - wadToK ℝ amm.current_fees.ask_fee) * fp))) (amm.reserve_x * 0.99))).1)
         "sell"
         (min (amm.reserve_x - Real.sqrt (amm.reserve_x * amm.reserve_y /
             ((1 - wadToK ℝ amm.current_fees.ask_fee) * fp))) (amm.reserve_x * 0.99))
         ((amm.quote_sell_x (min (amm.reserve_x - Real.sqrt (amm.reserve_x * amm.reserve_y /
             ((1 - wadToK ℝ amm.current_fees.ask_fee) * fp))) (amm.reserve_x * 0.99))).1))
         (amm.execute_sell_x afterSwap s
           (min (amm.reserve_x - Real.sqrt (amm.reserve_x * amm.reserve_y /
             ((1 - wadToK ℝ amm.current_fees.ask_fee) * fp))) (amm.reserve_x * 0.99)) t) ∧
     (amm.execute_sell_x afterSwap s
       (min (amm.reserve_x - Real.sqrt (amm.reserve_x * amm.reserve_y /
         ((1 - wadToK ℝ amm.current_fees.ask_fee) * fp))) (amm.reserve_x * 0.99)) t).isSome
       = true) ∧
    (fp < amm.reserve_y / amm.reserve_x →
     0 < 1 - wadToK ℝ amm.current_fees.bid_fee →
     0 < fp →
     0 < (Real.sqrt (amm.reserve_x * amm.reserve_y *
           (1 - wadToK ℝ amm.current_fees.bid_fee) / fp) - amm.reserve_x) /
         (1 - wadToK ℝ amm.current_fees.bid_fee) →
     0 < (amm.quote_buy_x ((Real.sqrt (amm.reserve_x * amm.reserve_y *
           (1 - wadToK ℝ amm.current_fees.bid_fee) / fp) - amm.reserve_x) /
           (1 - wadToK ℝ amm.current_fees.bid_fee))).1 -
         (Real.sqrt (amm.reserve_x * amm.reserve_y *
           (1 - wadToK ℝ amm.current_fees.bid_fee) / fp) - amm.reserve_x) /
           (1 - wadToK ℝ amm.current_fees.bid_fee) * fp →
     Arbitrageur.execute_arb afterSwap s amm fp t =
       Option.map (arbWrap amm.name
         ((amm.quote_buy_x ((Real.sqrt (amm.reserve_x * amm.reserve_y *
             (1 - wadToK ℝ amm.current_fees.bid_fee) / fp) - amm.reserve_x) /
             (1 - wadToK ℝ amm.current_fees.bid_fee))).1 -
           (Real.sqrt (amm.reserve_x * amm.reserve_y *
             (1 - wadToK ℝ amm.current_fees.bid_fee) / fp) - amm.reserve_x) /
             (1 - wadToK ℝ amm.current_fees.bid_fee) * fp)
         "buy"
         ((Real.sqrt (amm.reserve_x * amm.reserve_y *
             (1 - wadToK ℝ amm.current_fees.bid_fee) / fp) - amm.reserve_x) /
           (1 - wadToK ℝ amm.current_fees.bid_fee))
         ((amm.quote_buy_x ((Real.sqrt (amm.reserve_x * amm.reserve_y *
             (1 - wadToK ℝ amm.current_fees.bid_fee) / fp) - amm.reserve_x) /
             (1 - wadToK ℝ amm.current_fees.bid_fee))).1))
         (amm.execute_buy_x afterSwap s
           ((Real.sqrt (amm.reserve_x * amm.reserve_y *
             (1 - wadToK ℝ amm.current_fees.bid_fee) / fp) - amm.reserve_x) /
             (1 - wadToK ℝ amm.current_fees.bid_fee)) t) ∧
     (amm.execute_buy_x afterSwap s
       ((Real.sqrt (amm.reserve_x * amm.reserve_y *
         (1 - wadToK ℝ amm.current_fees.bid_fee) / fp) - amm.reserve_x) /
         (1 - wadToK ℝ amm.current_fees.bid_fee)) t).isSome = true) ∧
    (amm.reserve_y / amm.reserve_x = fp →
      Arbitrageur.execute_arb afterSwap s amm fp t = none) ∧
    (amm.reserve_y / amm.reserve_x < fp →
     (1 - wadToK ℝ amm.current_fees.ask_fee ≤ 0 ∨ fp ≤ 0 ∨
      min (amm.reserve_x - Real.sqrt (amm.reserve_x * amm.reserve_y /
        ((1 - wadToK ℝ amm.current_fees.ask_fee) * fp))) (amm.reserve_x * 0.99) ≤ 0 ∨
      min (amm.reserve_x - Real.sqrt (amm.reserve_x * amm.reserve_y /
          ((1 - wadToK ℝ amm.current_fees.ask_fee) * fp))) (amm.reserve_x * 0.99) * fp -
        (amm.quote_sell_x (min (amm.reserve_x - Real.sqrt (amm.reserve_x * amm.reserve_y /
          ((1 - wadToK ℝ amm.current_fees.ask_fee) * fp))) (amm.reserve_x * 0.99))).1 ≤ 0) →
      Arbitrageur.execute_arb afterSwap s amm fp t = none) ∧
    (fp < amm.reserve_y / amm.reserve_x →
     (1 - wadToK ℝ amm.current_fees.bid_fee ≤ 0 ∨ fp ≤ 0 ∨
      (Real.sqrt (amm.reserve_x * amm.reserve_y *
          (1 - wadToK ℝ amm.current_fees.bid_fee) / fp) - amm.reserve_x) /
        (1 - wadToK ℝ amm.current_fees.bid_fee) ≤ 0 ∨
      (amm.quote_buy_x ((Real.sqrt (amm.reserve_x * amm.reserve_y *
          (1 - wadToK ℝ amm.current_fees.bid_fee) / fp) - amm.reserve_x) /
          (1 - wadToK ℝ amm.current_fees.bid_fee))).1 -
        (Real.sqrt (amm.reserve_x * amm.reserve_y *
          (1 - wadToK ℝ amm.current_fees.bid_fee) / fp) - amm.reserve_x) /
          (1 - wadToK ℝ amm.current_fees.bid_fee) * fp ≤ 0) →
      Arbitrageur.execute_arb afterSwap s amm fp t = none) := by
  obtain ⟨hb0, hb1, ha0, ha1⟩ := hf
  have hcap99 : 0 < amm.reserve_x * 0.99 := by nlinarith
  refine ⟨?_, ?_, ?_, ?_, ?_⟩
  · -- profitable sell_x branch
    intro hspot hγ hfp hamt hprofit
    have hu : 0 < amm.reserve_x - Real.sqrt (amm.reserve_x * amm.reserve_y /
        ((1 - wadToK ℝ amm.current_fees.ask_fee) * fp)) := (lt_min_iff.mp hamt).1
    have hax : min (amm.reserve_x - Real.sqrt (amm.reserve_x * amm.reserve_y /
        ((1 - wadToK ℝ amm.current_fees.ask_fee) * fp))) (amm.reserve_x * 0.99)
        < amm.reserve_x :=
      lt_of_le_of_lt (min_le_right _ _) (by nlinarith)
    have hγc : fclamp (1 - wadToK ℝ amm.current_fees.ask_fee) 0 1
        = 1 - wadToK ℝ amm.current_fees.ask_fee := fclamp_gamma_eq ha0 ha1
    have hnet : 0 < amm.reserve_x * amm.reserve_y /
        (amm.reserve_x - min (amm.reserve_x - Real.sqrt (amm.reserve_x * amm.reserve_y /
          ((1 - wadToK ℝ amm.current_fees.ask_fee) * fp))) (amm.reserve_x * 0.99)) -
        amm.reserve_y := by
      rw [sub_pos, lt_div_iff (by linarith)]
      nlinarith [hamt]
    have hty : 0 < (amm.quote_sell_x (min (amm.reserve_x -
        Real.sqrt (amm.reserve_x * amm.reserve_y /
          ((1 - wadToK ℝ amm.current_fees.ask_fee) * fp))) (amm.reserve_x * 0.99))).1 := by
      rw [quote_sell_x_eq_of (by push_neg; exact ⟨hamt, hax⟩)
        (by rw [hγc]; exact not_le.mpr hγ) (not_le.mpr hnet)]
      dsimp only
      rw [hγc]
      positivity
    simp only [Arbitrageur.execute_arb, Arbitrageur.compute_buy_arb]
    rw [if_pos hspot,
      if_neg (not_or.mpr ⟨not_le.mpr hγ, not_le.mpr hfp⟩),
      if_neg (not_le.mpr hu),
      if_neg (not_le.mpr hty),
      if_neg (not_le.mpr hprofit)]
    refine ⟨?_, execute_sell_x_isSome s amm _ t hty⟩
    rcases hE : amm.execute_sell_x afterSwap s (min (amm.reserve_x -
        Real.sqrt (amm.reserve_x * amm.reserve_y /
          ((1 - wadToK ℝ amm.current_fees.ask_fee) * fp))) (amm.reserve_x * 0.99)) t
      with _ | ⟨p1, s1, r⟩
    · rfl
    · rfl
  · -- profitable buy_x branch
    intro hspot hγ hfp hamt hprofit
    have hγc : fclamp (1 - wadToK ℝ amm.current_fees.bid_fee) 0 1
        = 1 - wadToK ℝ amm.current_fees.bid_fee := fclamp_gamma_eq hb0 hb1
    have hden : 0 < amm.reserve_x + (Real.sqrt (amm.reserve_x * amm.reserve_y *
        (1 - wadToK ℝ amm.current_fees.bid_fee) / fp) - amm.reserve_x) /
        (1 - wadToK ℝ amm.current_fees.bid_fee) *
        (1 - wadToK ℝ amm.current_fees.bid_fee) := by
      nlinarith [mul_pos hamt hγ]
    have hyout : 0 < amm.reserve_y - amm.reserve_x * amm.reserve_y /
        (amm.reserve_x + (Real.sqrt (amm.reserve_x * amm.reserve_y *
          (1 - wadToK ℝ amm.current_fees.bid_fee) / fp) - amm.reserve_x) /
          (1 - wadToK ℝ amm.current_fees.bid_fee) *
          (1 - wadToK ℝ amm.current_fees.bid_fee)) := by
      rw [sub_pos, div_lt_iff hden]
      nlinarith [mul_pos hy (mul_pos hamt hγ)]
    have hyo : 0 < (amm.quote_buy_x ((Real.sqrt (amm.reserve_x * amm.reserve_y *
        (1 - wadToK ℝ amm.current_fees.bid_fee) / fp) - amm.reserve_x) /
        (1 - wadToK ℝ amm.current_fees.bid_fee))).1 := by
      rw [quote_buy_x_eq_of (not_le.mpr hamt) (by rw [hγc]; exact not_le.mpr hγ),
        hγc, if_pos hyout]
      exact hyout
    simp only [Arbitrageur.execute_arb, Arbitrageur.compute_sell_arb]
    rw [if_neg (not_lt.mpr hspot.le), if_pos hspot,
      if_neg (not_or.mpr ⟨not_le.mpr hγ, not_le.mpr hfp⟩),
      if_neg (not_le.mpr hamt),
      if_neg (not_le.mpr hyo),
      if_neg (not_le.mpr hprofit)]
    refine ⟨?_, execute_buy_x_isSome s amm _ t hyo⟩
    rcases hE : amm.execute_buy_x afterSwap s ((Real.sqrt (amm.reserve_x *
        amm.reserve_y * (1 - wadToK ℝ amm.current_fees.bid_fee) / fp) -
        amm.reserve_x) / (1 - wadToK ℝ amm.current_fees.bid_fee)) t
      with _ | ⟨p1, s1, r⟩
    · rfl
    · rfl
  · -- spot exactly fair: no trade
    intro hspot
    simp only [Arbitrageur.execute_arb]
    rw [if_neg (by rw [hspot]; exact lt_irrefl fp),
      if_neg (by rw [hspot]; exact lt_irrefl fp)]
  · -- sell side, one of the guards fails: no trade
    intro hspot hdisj
    simp only [Arbitrageur.execute_arb, Arbitrageur.compute_buy_arb]
    rw [if_pos hspot]
    by_cases h1 : 1 - wadToK ℝ amm.current_fees.ask_fee ≤ 0 ∨ fp ≤ 0
    · rw [if_pos h1]
    rw [if_neg h1]
    push_neg at h1
    by_cases h2 : amm.reserve_x - Real.sqrt (amm.reserve_x * amm.reserve_y /
        ((1 - wadToK ℝ amm.current_fees.ask_fee) * fp)) ≤ 0
    · rw [if_pos h2]
    rw [if_neg h2]
    push_neg at h2
    by_cases h3 : (amm.quote_sell_x (min (amm.reserve_x -
        Real.sqrt (amm.reserve_x * amm.reserve_y /
          ((1 - wadToK ℝ amm.current_fees.ask_fee) * fp))) (amm.reserve_x * 0.99))).1 ≤ 0
    · rw [if_pos h3]
    rw [if_neg h3]
    have h4 : min (amm.reserve_x - Real.sqrt (amm.reserve_x * amm.reserve_y /
        ((1 - wadToK ℝ amm.current_fees.ask_fee) * fp))) (amm.reserve_x * 0.99) * fp -
        (amm.quote_sell_x (min (amm.reserve_x - Real.sqrt (amm.reserve_x * amm.reserve_y /
          ((1 - wadToK ℝ amm.current_fees.ask_fee) * fp))) (amm.reserve_x * 0.99))).1 ≤ 0 := by
      rcases hdisj with h | h | h | h
      · exact absurd h (not_le.mpr h1.1)
      · exact absurd h (not_le.mpr h1.2)
      · exact absurd h (not_le.mpr (lt_min_iff.mpr ⟨h2, hcap99⟩))
      · exact h
    rw [if_pos h4]
  · -- buy side, one of the guards fails: no trade
    intro hspot hdisj
    simp only [Arbitrageur.execute_arb, Arbitrageur.compute_sell_arb]
    rw [if_neg (not_lt.mpr hspot.le), if_pos hspot]
    by_cases h1 : 1 - wadToK ℝ amm.current_fees.bid_fee ≤ 0 ∨ fp ≤ 0
    · rw [if_pos h1]
    rw [if_neg h1]
    push_neg at h1
    by_cases h2 : (Real.sqrt (amm.reserve_x * amm.reserve_y *
        (1 - wadToK ℝ amm.current_fees.bid_fee) / fp) - amm.reserve_x) /
        (1 - wadToK ℝ amm.current_fees.bid_fee) ≤ 0
    · rw [if_pos h2]
    rw [if_neg h2]
    by_cases h3 : (amm.quote_buy_x ((Real.sqrt (amm.reserve_x * amm.reserve_y *
        (1 - wadToK ℝ amm.current_fees.bid_fee) / fp) - amm.reserve_x) /
        (1 - wadToK ℝ amm.current_fees.bid_fee))).1 ≤ 0
    · rw [if_pos h3]
    rw [if_neg h3]
    have h4 : (amm.quote_buy_x ((Real.sqrt (amm.reserve_x * amm.reserve_y *
        (1 - wadToK ℝ amm.current_fees.bid_fee) / fp) - amm.reserve_x) /
        (1 - wadToK ℝ amm.current_fees.bid_fee))).1 -
        (Real.sqrt (amm.reserve_x * amm.reserve_y *
          (1 - wadToK ℝ amm.current_fees.bid_fee) / fp) - amm.reserve_x) /
          (1 - wadToK ℝ amm.current_fees.bid_fee) * fp ≤ 0 := by
      rcases hdisj with h | h | h | h
      · exact absurd h (not_le.mpr h1.1)
      · exact absurd h (not_le.mpr h1.2)
      · exact absurd h h2
      · exact h
    rw [if_pos h4]

/-- C3, witness: on the zero-fee `(1000, 1000)` pool with fair price 4
the optimal withdrawal is `min (1000 − √250000) 990 = 500`, the quoted
Y-in is 1000, the profit is 1000, and the arbitrageur indeed trades. -/
theorem c3_execute_arb_witness :
    (testPool.execute_sell_x unitStrat () 500 0).isSome = true ∧
    (Arbitrageur.execute_arb unitStrat () testPool 4 0).isSome = true := by
  have hsq : Real.sqrt (testPool.reserve_x * testPool.reserve_y /
      ((1 - wadToK ℝ testPool.current_fees.ask_fee) * 4)) = 500 := by
    rw [show testPool.reserve_x * testPool.reserve_y /
        ((1 - wadToK ℝ testPool.current_fees.ask_fee) * 4) = (250000 : ℝ) by
      rw [show testPool.reserve_x = (1000 : ℝ) from rfl,
        show testPool.reserve_y = (1000 : ℝ) from rfl,
        show testPool.current_fees.ask_fee = 0 from rfl]
      norm_num [wadToK]]
    rw [show (250000 : ℝ) = 500 ^ 2 by norm_num, Real.sqrt_sq (by norm_num)]
  have hamt : min (testPool.reserve_x - Real.sqrt (testPool.reserve_x *
      testPool.reserve_y / ((1 - wadToK ℝ testPool.current_fees.ask_fee) * 4)))
      (testPool.reserve_x * 0.99) = 500 := by
    rw [hsq, show testPool.reserve_x = (1000 : ℝ) from rfl]
    rw [min_def]
    norm_num
  have hq500 : (testPool.quote_sell_x 500).1 = 1000 := by
    have hg : ¬ fclamp (1 - wadToK ℝ testPool.current_fees.ask_fee) 0 1 ≤ 0 := by
      rw [show testPool.current_fees.ask_fee = 0 from rfl]
      norm_num [wadToK, fclamp, min_def, max_def]
    rw [quote_sell_x_eq_of (by
        rw [show testPool.reserve_x = (1000 : ℝ) from rfl]
        norm_num) hg
      (by
        rw [show testPool.reserve_x = (1000 : ℝ) from rfl,
          show testPool.reserve_y = (1000 : ℝ) from rfl]
        norm_num)]
    dsimp only
    rw [show testPool.reserve_x = (1000 : ℝ) from rfl,
      show testPool.reserve_y = (1000 : ℝ) from rfl,
      show testPool.current_fees.ask_fee = 0 from rfl]
    norm_num [wadToK, fclamp, min_def, max_def]
  have hc := (c3_execute_arb unitStrat () testPool 4 0
    (by rw [show testPool.reserve_x = (1000 : ℝ) from rfl]; norm_num)
    (by rw [show testPool.reserve_y = (1000 : ℝ) from rfl]; norm_num)
    (by refine ⟨?_, ?_, ?_, ?_⟩ <;> norm_num [testPool, Wad.MAX_FEE])).1
    (by rw [show testPool.reserve_x = (1000 : ℝ) from rfl,
      show testPool.reserve_y = (1000 : ℝ) from rfl]; norm_num)
    (by rw [show testPool.current_fees.ask_fee = 0 from rfl]; norm_num [wadToK])
    (by norm_num)
    (by rw [hamt]; norm_num)
    (by rw [hamt, hq500]; norm_num)
  rw [hamt] at hc
  refine ⟨hc.2, ?_⟩
  obtain ⟨z, hz⟩ := Option.isSome_iff_exists.mp hc.2
  rw [hc.1, hz]
  rfl

/-! ### Claim C4: two-pool order splitting -/

/-- C4: the two-pool split formulas, their degenerate cases, the
`size/fair_price` conversion for sells, and the dust floor.  Writing
`Ai = √(xi·γi·yi)` with ask fees, `Bi = √(yi·γi·xi)` with bid fees and
`r = A1/A2` (resp. `B1/B2`): the pool-1 allocation is the claimed ratio
formula clamped to `[0, total]` with pool 2 taking the remainder; if
`A2 = 0` (resp. `B2 = 0`) everything goes to pool 1; if the denominator
is 0 the order splits 50/50; a sell order splits `size/fair_price`; and
a leg whose allocation does not exceed `10⁻⁴` leaves its pool and
strategy state untouched. -/
theorem c4_router_split {S1 S2 : Type}
    (afterSwap1 : S1 → TradeInfo ℝ → Option (Int × Int) × S1) (s1 : S1)
    (afterSwap2 : S2 → TradeInfo ℝ → Option (Int × Int) × S2) (s2 : S2)
    (amm1 amm2 : CFMM ℝ) (Y fp : ℝ) (t : Nat) :
    (Real.sqrt (amm2.reserve_x * (1 - wadToK ℝ amm2.current_fees.ask_fee) *
        amm2.reserve_y) ≠ 0 →
     (1 - wadToK ℝ amm1.current_fees.ask_fee) +
       Real.sqrt (amm1.reserve_x * (1 - wadToK ℝ amm1.current_fees.ask_fee) *
           amm1.reserve_y) /
         Real.sqrt (amm2.reserve_x * (1 - wadToK ℝ amm2.current_fees.ask_fee) *
           amm2.reserve_y) * (1 - wadToK ℝ amm2.current_fees.ask_fee) ≠ 0 →
     OrderRouter.split_buy_two_amms amm1 amm2 Y =
       (min (max ((Real.sqrt (amm1.reserve_x *
             (1 - wadToK ℝ amm1.current_fees.ask_fee) * amm1.reserve_y) /
           Real.sqrt (amm2.reserve_x *
             (1 - wadToK ℝ amm2.current_fees.ask_fee) * amm2.reserve_y) *
           (amm2.reserve_y + (1 - wadToK ℝ amm2.current_fees.ask_fee) * Y) -
           amm1.reserve_y) /
          ((1 - wadToK ℝ amm1.current_fees.ask_fee) +
           Real.sqrt (amm1.reserve_x *
             (1 - wadToK ℝ amm1.current_fees.ask_fee) * amm1.reserve_y) /
           Real.sqrt (amm2.reserve_x *
             (1 - wadToK ℝ amm2.current_fees.ask_fee) * amm2.reserve_y) *
           (1 - wadToK ℝ amm2.current_fees.ask_fee))) 0) Y,
        Y - min (max ((Real.sqrt (amm1.reserve_x *
             (1 - wadToK ℝ amm1.current_fees.ask_fee) * amm1.reserve_y) /
           Real.sqrt (amm2.reserve_x *
             (1 - wadToK ℝ amm2.current_fees.ask_fee) * amm2.reserve_y) *
           (amm2.reserve_y + (1 - wadToK ℝ amm2.current_fees.ask_fee) * Y) -
           amm1.reserve_y) /
          ((1 - wadToK ℝ amm1.current_fees.ask_fee) +
           Real.sqrt (amm1.reserve_x *
             (1 - wadToK ℝ amm1.current_fees.ask_fee) * amm1.reserve_y) /
           Real.sqrt (amm2.reserve_x *
             (1 - wadToK ℝ amm2.current_fees.ask_fee) * amm2.reserve_y) *
           (1 - wadToK ℝ amm2.current_fees.ask_fee))) 0) Y)) ∧
    (Real.sqrt (amm2.reserve_x * (1 - wadToK ℝ amm2.current_fees.ask_fee) *
        amm2.reserve_y) = 0 →
      OrderRouter.split_buy_two_amms amm1 amm2 Y = (Y, 0)) ∧
    (Real.sqrt (amm2.reserve_x * (1 - wadToK ℝ amm2.current_fees.ask_fee) *
        amm2.reserve_y) ≠ 0 →
     (1 - wadToK ℝ amm1.current_fees.ask_fee) +
       Real.sqrt (amm1.reserve_x * (1 - wadToK ℝ amm1.current_fees.ask_fee) *
           amm1.reserve_y) /
         Real.sqrt (amm2.reserve_x * (1 - wadToK ℝ amm2.current_fees.ask_fee) *
           amm2.reserve_y) * (1 - wadToK ℝ amm2.current_fees.ask_fee) = 0 →
     0 ≤ Y →
     OrderRouter.split_buy_two_amms amm1 amm2 Y = (Y / 2, Y / 2)) ∧
    (Real.sqrt (amm2.reserve_y * (1 - wadToK ℝ amm2.current_fees.bid_fee) *
        amm2.reserve_x) ≠ 0 →
     (1 - wadToK ℝ amm1.current_fees.bid_fee) +
       Real.sqrt (amm1.reserve_y * (1 - wadToK ℝ amm1.current_fees.bid_fee) *
           amm1.reserve_x) /
         Real.sqrt (amm2.reserve_y * (1 - wadToK ℝ amm2.current_fees.bid_fee) *
           amm2.reserve_x) * (1 - wadToK ℝ amm2.current_fees.bid_fee) ≠ 0 →
     OrderRouter.split_sell_two_amms amm1 amm2 Y =
       (min (max ((Real.sqrt (amm1.reserve_y *
             (1 - wadToK ℝ amm1.current_fees.bid_fee) * amm1.reserve_x) /
           Real.sqrt (amm2.reserve_y *
             (1 - wadToK ℝ amm2.current_fees.bid_fee) * amm2.reserve_x) *
           (amm2.reserve_x + (1 - wadToK ℝ amm2.current_fees.bid_fee) * Y) -
           amm1.reserve_x) /
          ((1 - wadToK ℝ amm1.current_fees.bid_fee) +
           Real.sqrt (amm1.reserve_y *
             (1 - wadToK ℝ amm1.current_fees.bid_fee) * amm1.reserve_x) /
           Real.sqrt (amm2.reserve_y *
             (1 - wadToK ℝ amm2.current_fees.bid_fee) * amm2.reserve_x) *
           (1 - wadToK ℝ amm2.current_fees.bid_fee))) 0) Y,
        Y - min (max ((Real.sqrt (amm1.reserve_y *
             (1 - wadToK ℝ amm1.current_fees.bid_fee) * amm1.reserve_x) /
           Real.sqrt (amm2.reserve_y *
             (1 - wadToK ℝ amm2.current_fees.bid_fee) * amm2.reserve_x) *
           (amm2.reserve_x + (1 - wadToK ℝ amm2.current_fees.bid_fee) * Y) -
           amm1.reserve_x) /
          ((1 - wadToK ℝ amm1.current_fees.bid_fee) +
           Real.sqrt (amm1.reserve_y *
             (1 - wadToK ℝ amm1.current_fees.bid_fee) * amm1.reserve_x) /
           Real.sqrt (amm2.reserve_y *
             (1 - wadToK ℝ amm2.current_fees.bid_fee) * amm2.reserve_x) *
           (1 - wadToK ℝ amm2.current_fees.bid_fee))) 0) Y)) ∧
    (Real.sqrt (amm2.reserve_y * (1 - wadToK ℝ amm2.current_fees.bid_fee) *
        amm2.reserve_x) = 0 →
      OrderRouter.split_sell_two_amms amm1 amm2 Y = (Y, 0)) ∧
    (Real.sqrt (amm2.reserve_y * (1 - wadToK ℝ amm2.current_fees.bid_fee) *
        amm2.reserve_x) ≠ 0 →
     (1 - wadToK ℝ amm1.current_fees.bid_fee) +
       Real.sqrt (amm1.reserve_y * (1 - wadToK ℝ amm1.current_fees.bid_fee) *
           amm1.reserve_x) /
         Real.sqrt (amm2.reserve_y * (1 - wadToK ℝ amm2.current_fees.bid_fee) *
           amm2.reserve_x) * (1 - wadToK ℝ amm2.current_fees.bid_fee) = 0 →
     0 ≤ Y →
     OrderRouter.split_sell_two_amms amm1 amm2 Y = (Y / 2, Y / 2)) ∧
    (∀ order : RetailOrder, order.side = "buy" →
      ((OrderRouter.split_buy_two_amms amm1 amm2 order.size).1 ≤ 0.0001 →
        (OrderRouter.route_to_two_amms afterSwap1 s1 afterSwap2 s2
          amm1 amm2 order fp t).1 = amm1 ∧
        (OrderRouter.route_to_two_amms afterSwap1 s1 afterSwap2 s2
          amm1 amm2 order fp t).2.1 = s1) ∧
      ((OrderRouter.split_buy_two_amms amm1 amm2 order.size).2 ≤ 0.0001 →
        (OrderRouter.route_to_two_amms afterSwap1 s1 afterSwap2 s2
          amm1 amm2 order fp t).2.2.1 = amm2 ∧
        (OrderRouter.route_to_two_amms afterSwap1 s1 afterSwap2 s2
          amm1 amm2 order fp t).2.2.2.1 = s2)) ∧
    (∀ order : RetailOrder, order.side ≠ "buy" →
      ((OrderRouter.split_sell_two_amms amm1 amm2 (order.size / fp)).1 ≤ 0.0001 →
        (OrderRouter.route_to_two_amms afterSwap1 s1 afterSwap2 s2
          amm1 amm2 order fp t).1 = amm1 ∧
        (OrderRouter.route_to_two_amms afterSwap1 s1 afterSwap2 s2
          amm1 amm2 order fp t).2.1 = s1) ∧
      ((OrderRouter.split_sell_two_amms amm1 amm2 (order.size / fp)).2 ≤ 0.0001 →
        (OrderRouter.route_to_two_amms afterSwap1 s1 afterSwap2 s2
          amm1 amm2 order fp t).2.2.1 = amm2 ∧
        (OrderRouter.route_to_two_amms afterSwap1 s1 afterSwap2 s2
          amm1 amm2 order fp t).2.2.2.1 = s2) ∧
      (OrderRouter.route_to_two_amms afterSwap1 s1 afterSwap2 s2
          amm1 amm2 order fp t).1 =
        (OrderRouter.sell_leg afterSwap1 s1 amm1
          (OrderRouter.split_sell_two_amms amm1 amm2 (order.size / fp)).1 t).1) := by
  refine ⟨?_, ?_, ?_, ?_, ?_, ?_, ?_, ?_⟩
  · intro hA2 hden
    simp only [OrderRouter.split_buy_two_amms]
    rw [if_neg hA2, if_neg hden]
  · intro hA2
    rw [OrderRouter.split_buy_two_amms, if_pos hA2]
  · intro hA2 hden hY
    simp only [OrderRouter.split_buy_two_amms]
    rw [if_neg hA2, if_pos hden]
    have h1 : max (Y / 2) 0 = Y / 2 := max_eq_left (by linarith)
    have h2 : min (Y / 2) Y = Y / 2 := min_eq_left (by linarith)
    rw [h1, h2]
    norm_num
    ring
  · intro hB2 hden
    simp only [OrderRouter.split_sell_two_amms]
    rw [if_neg hB2, if_neg hden]
  · intro hB2
    rw [OrderRouter.split_sell_two_amms, if_pos hB2]
  · intro hB2 hden hY
    simp only [OrderRouter.split_sell_two_amms]
    rw [if_neg hB2, if_pos hden]
    have h1 : max (Y / 2) 0 = Y / 2 := max_eq_left (by linarith)
    have h2 : min (Y / 2) Y = Y / 2 := min_eq_left (by linarith)
    rw [h1, h2]
    norm_num
    ring
  · intro order hside
    refine ⟨?_, ?_⟩
    · intro hdust
      simp only [OrderRouter.route_to_two_amms]
      rw [if_pos hside]
      constructor
      · show (OrderRouter.buy_leg afterSwap1 s1 amm1
          (OrderRouter.split_buy_two_amms amm1 amm2 order.size).1 t).1 = amm1
        rw [OrderRouter.buy_leg, if_neg (not_lt.mpr hdust)]
      · show (OrderRouter.buy_leg afterSwap1 s1 amm1
          (OrderRouter.split_buy_two_amms amm1 amm2 order.size).1 t).2.1 = s1
        rw [OrderRouter.buy_leg, if_neg (not_lt.mpr hdust)]
    · intro hdust
      simp only [OrderRouter.route_to_two_amms]
      rw [if_pos hside]
      constructor
      · show (OrderRouter.buy_leg afterSwap2 s2 amm2
          (OrderRouter.split_buy_two_amms amm1 amm2 order.size).2 t).1 = amm2
        rw [OrderRouter.buy_leg, if_neg (not_lt.mpr hdust)]
      · show (OrderRouter.buy_leg afterSwap2 s2 amm2
          (OrderRouter.split_buy_two_amms amm1 amm2 order.size).2 t).2.1 = s2
        rw [OrderRouter.buy_leg, if_neg (not_lt.mpr hdust)]
  · intro order hside
    refine ⟨?_, ?_, ?_⟩
    · intro hdust
      simp only [OrderRouter.route_to_two_amms]
      rw [if_neg hside]
      constructor
      · show (OrderRouter.sell_leg afterSwap1 s1 amm1
          (OrderRouter.split_sell_two_amms amm1 amm2 (order.size / fp)).1 t).1 = amm1
        rw [OrderRouter.sell_leg, if_neg (not_lt.mpr hdust)]
      · show (OrderRouter.sell_leg afterSwap1 s1 amm1
          (OrderRouter.split_sell_two_amms amm1 amm2 (order.size / fp)).1 t).2.1 = s1
        rw [OrderRouter.sell_leg, if_neg (not_lt.mpr hdust)]
    · intro hdust
      simp only [OrderRouter.route_to_two_amms]
      rw [if_neg hside]
      constructor
      · show (OrderRouter.sell_leg afterSwap2 s2 amm2
          (OrderRouter.split_sell_two_amms amm1 amm2 (order.size / fp)).2 t).1 = amm2
        rw [OrderRouter.sell_leg, if_neg (not_lt.mpr hdust)]
      · show (OrderRouter.sell_leg afterSwap2 s2 amm2
          (OrderRouter.split_sell_two_amms amm1 amm2 (order.size / fp)).2 t).2.1 = s2
        rw [OrderRouter.sell_leg, if_neg (not_lt.mpr hdust)]
    · simp only [OrderRouter.route_to_two_amms]
      rw [if_neg hside]

/-- C4, witness: two identical zero-fee `(1000, 1000)` pools split a buy
of 100 exactly 50/50, and a dust-sized sell leaves pool 1 untouched. -/
theorem c4_router_split_witness :
    OrderRouter.split_buy_two_amms testPool testPool 100 = (50, 50) ∧
    (OrderRouter.route_to_two_amms unitStrat () unitStrat ()
      testPool testPool ⟨"sell", 0.00005⟩ 1 0).1 = testPool := by
  have hsq : Real.sqrt (testPool.reserve_x *
      (1 - wadToK ℝ testPool.current_fees.ask_fee) * testPool.reserve_y) = 1000 := by
    rw [show testPool.reserve_x * (1 - wadToK ℝ testPool.current_fees.ask_fee) *
        testPool.reserve_y = (1000000 : ℝ) by
      rw [show testPool.reserve_x = (1000 : ℝ) from rfl,
        show testPool.reserve_y = (1000 : ℝ) from rfl,
        show testPool.current_fees.ask_fee = 0 from rfl]
      norm_num [wadToK]]
    rw [show (1000000 : ℝ) = 1000 ^ 2 by norm_num, Real.sqrt_sq (by norm_num)]
  have hc := c4_router_split unitStrat () unitStrat () testPool testPool 100 1 0
  constructor
  · rw [hc.1 (by rw [hsq]; norm_num)
      (by
        rw [hsq, show testPool.current_fees.ask_fee = 0 from rfl]
        norm_num [wadToK])]
    rw [hsq, show testPool.reserve_y = (1000 : ℝ) from rfl,
      show testPool.current_fees.ask_fee = 0 from rfl]
    norm_num [wadToK, max_def, min_def]
  · have hsqB : Real.sqrt (testPool.reserve_y *
        (1 - wadToK ℝ testPool.current_fees.bid_fee) * testPool.reserve_x) = 1000 := by
      rw [show testPool.reserve_y * (1 - wadToK ℝ testPool.current_fees.bid_fee) *
          testPool.reserve_x = (1000000 : ℝ) by
        rw [show testPool.reserve_x = (1000 : ℝ) from rfl,
          show testPool.reserve_y = (1000 : ℝ) from rfl,
          show testPool.current_fees.bid_fee = 0 from rfl]
        norm_num [wadToK]]
      rw [show (1000000 : ℝ) = 1000 ^ 2 by norm_num, Real.sqrt_sq (by norm_num)]
    have hc2 := c4_router_split unitStrat () unitStrat () testPool testPool
      ((0.00005 : ℝ) / 1) 1 0
    have hsplit : OrderRouter.split_sell_two_amms testPool testPool
        ((0.00005 : ℝ) / 1) = (0.000025, 0.000025) := by
      rw [hc2.2.2.2.1 (by rw [hsqB]; norm_num)
        (by
          rw [hsqB, show testPool.current_fees.bid_fee = 0 from rfl]
          norm_num [wadToK])]
      rw [hsqB, show testPool.reserve_x = (1000 : ℝ) from rfl,
        show testPool.current_fees.bid_fee = 0 from rfl]
      norm_num [wadToK, max_def, min_def]
    exact ((c4_router_split unitStrat () unitStrat () testPool testPool
        (0.00005 : ℝ) 1 0).2.2.2.2.2.2.2 ⟨"sell", 0.00005⟩ (by decide)).1
      (by
        show (OrderRouter.split_sell_two_amms testPool testPool
          ((0.00005 : ℝ) / 1)).1 ≤ 0.0001
        rw [hsplit]
        norm_num) |>.1

/-! ### Claim C2: determinism -/

/-- C2: in this embedding the only nondeterministic inputs of a run are
the OS-entropy oracles (`Pcg64::from_entropy`), and the engine never
consults them: it always seeds the price process from `seed` and the
retail trader from `seed + 1`, where `seed = cfg.seed.unwrap_or(0)`.  So
two independent executions — arbitrary and possibly different entropy on
each side — produce identical `SimResult`s, two price processes built
with the same seed produce identical price sequences step by step, and
the constructed RNG states are exactly `seedFrom seed` and
`seedFrom (seed + 1)`. -/
theorem c2_determinism {R S1 S2 : Type} (M : RngModel R)
    (e1 e2 e1' e2' : R) (cfg : SimulationConfig)
    (afterSwap1 : S1 → TradeInfo ℝ → Option (Int × Int) × S1)
    (afterInit1 : S1 → ℝ → ℝ → Option ((Int × Int) × S1)) (s1 : S1)
    (afterSwap2 : S2 → TradeInfo ℝ → Option (Int × Int) × S2)
    (afterInit2 : S2 → ℝ → ℝ → Option ((Int × Int) × S2)) (s2 : S2)
    (p0 mu sigma dt lam mean ssig bp : ℝ) (sd n : Nat) :
    SimulationEngine.run M e1 e2 cfg afterSwap1 afterInit1 s1
        afterSwap2 afterInit2 s2
      = SimulationEngine.run M e1' e2' cfg afterSwap1 afterInit1 s1
        afterSwap2 afterInit2 s2 ∧
    GBMPriceProcess.prices M n (GBMPriceProcess.new M e1 p0 mu sigma dt (some sd))
      = GBMPriceProcess.prices M n (GBMPriceProcess.new M e2 p0 mu sigma dt (some sd)) ∧
    (GBMPriceProcess.new M e1 cfg.initial_price cfg.gbm_mu cfg.gbm_sigma
        cfg.gbm_dt (some (cfg.seed.getD 0))).rng = M.seedFrom (cfg.seed.getD 0) ∧
    (RetailTrader.new M e2 cfg.retail_arrival_rate cfg.retail_mean_size
        cfg.retail_size_sigma cfg.retail_buy_prob
        (some (cfg.seed.getD 0 + 1))).rng = M.seedFrom (cfg.seed.getD 0 + 1) ∧
    (GBMPriceProcess.new M e1 p0 mu sigma dt (some sd))
      = (GBMPriceProcess.new M e2 p0 mu sigma dt (some sd)) ∧
    (RetailTrader.new M e1 lam mean ssig bp (some sd))
      = (RetailTrader.new M e2 lam mean ssig bp (some sd)) :=
  ⟨rfl, rfl, rfl, rfl, rfl, rfl⟩

end AmmSim
